import Mathlib

/-!
A shallow embedding of the team-configuration validator
(`skills/teams-plan/scripts/validate_team.py`) and proofs about it.

The configuration document is modelled as a typed record: presence or
absence of a key is an `Option`, and each present value carries the type
the validator's rules read from it (strings, lists, records).  Values of
unexpected runtime type (for example a non-string team name) are outside
the modelled universe; every control-flow decision of the source is kept.
The one fallible access of the source -- `role['id']` inside the
unresolved-`reports_to` error message, which raises `KeyError` when the
role has no `id` -- is modelled by `Option`: `none` is an uncaught
exception escaping `validate`.
-/

namespace TeamVal

/-- Bool-valued prefix test on character lists (used for message analysis;
`listPre n h` is true iff `n` is an initial segment of `h`). -/
def listPre : List Char → List Char → Bool
  | [], _ => true
  | _ :: _, [] => false
  | a :: as, b :: bs => a == b && listPre as bs

/-- Bool-valued contiguous-substring test on character lists. -/
def listInfix (n : List Char) : List Char → Bool
  | [] => n.isEmpty
  | c :: t => listPre n (c :: t) || listInfix n t

/-- Python's `needle in hay` substring test on strings. -/
def strContains (hay needle : String) : Bool :=
  listInfix needle.data hay.data

/-- Python `str.lower()` (ASCII case mapping; the keyword table it is compared
against is all ASCII). -/
def pyLower (s : String) : String :=
  ⟨s.data.map Char.toLower⟩

/-- Python `set.add`: the membership afterwards includes the element; modelled
on lists by appending the element when it is new. -/
def setAdd (s : List String) (x : String) : List String :=
  if x ∈ s then s else s ++ [x]

/-- Whitespace recognized when trimming the argument of Python `int`. -/
def isWs (c : Char) : Bool :=
  decide (c = ' ' ∨ c = '\t' ∨ c = '\n' ∨ c = '\r')

/-- Value of a nonempty all-digit character list (accumulator form). -/
def digCore : List Char → Nat → Option Nat
  | [], acc => some acc
  | c :: cs, acc => if c.isDigit then digCore cs (acc * 10 + (c.toNat - 48)) else none

/-- Value of a character list that is one or more decimal digits. -/
def digitsVal : List Char → Option Nat
  | [] => none
  | c :: cs => digCore (c :: cs) 0

/-- Models Python `int(s)` on ASCII decimal strings: surrounding whitespace is
stripped, one optional sign, then one or more digits.  (Digit-group
underscores, unicode digits and non-ASCII whitespace are not modelled.) -/
def pyInt (s : String) : Option Int :=
  let t := ((s.data.dropWhile isWs).reverse.dropWhile isWs).reverse
  match t with
  | '-' :: rest => (digitsVal rest).map (fun n => -(n : Int))
  | '+' :: rest => (digitsVal rest).map (fun n => (n : Int))
  | rest => (digitsVal rest).map (fun n => (n : Int))

/-- Python `s.endswith('%')`. -/
def endsPercent (s : String) : Bool :=
  s.data.getLast? == some '%'

/-- Python `s[:-1]`: the string without its last character. -/
def dropLastChar (s : String) : String :=
  ⟨s.data.dropLast⟩

/-- `ValidationLevel` of the source: ERROR blocks the verdict, WARNING and
INFO do not. -/
inductive Level where
  | ERROR
  | WARNING
  | INFO
deriving DecidableEq

/-- `ValidationIssue` of the source: level, category, message, optional
suggestion, optional document path. -/
structure Issue where
  level : Level
  category : String
  message : String
  suggestion : Option String
  path : Option String
deriving DecidableEq

/-- A role record: each field is `none` when the key is absent. -/
structure Role where
  id : Option String
  model : Option String
  type : Option String
  responsibilities : Option (List String)
  reports_to : Option String
deriving DecidableEq

/-- A workflow phase record. -/
structure Phase where
  name : Option String
  dependencies : Option (List String)
  duration : Option String
deriving DecidableEq

/-- A communication channel record. -/
structure Channel where
  name : Option String
  type : Option String
  frequency : Option String
deriving DecidableEq

/-- The `communication` block. -/
structure Communication where
  channels : Option (List Channel)
deriving DecidableEq

/-- The `workflow` block. -/
structure Workflow where
  phases : Option (List Phase)
deriving DecidableEq

/-- The configuration document: recognized top-level keys; the three
presence-only keys are booleans (present or not). -/
structure Config where
  name : Option String
  roles : Option (List Role)
  workflow : Option Workflow
  communication : Option Communication
  token_budget : Option String
  quality_gates : Bool
  error_recovery : Bool
  success_metrics : Bool
deriving DecidableEq

/-- The `role_models` table of the validator, in declaration order. -/
def role_models : List (String × String) :=
  [("ceo", "opus"), ("cto", "opus"), ("product-owner", "opus"),
   ("tech-lead", "opus"), ("architect", "sonnet"), ("developer", "sonnet"),
   ("designer", "sonnet"), ("qa", "sonnet"), ("writer", "haiku"),
   ("monitor", "haiku")]

/-- `_suggest_model`: first table entry whose keyword is a substring of the
lowercased role type; `'sonnet'` when none matches. -/
def suggest_model (role_type : String) : String :=
  match role_models.find? (fun kv => strContains (pyLower role_type) kv.1) with
  | some kv => kv.2
  | none => "sonnet"

/-- `roles[{i}]` document path. -/
def rolePath (i : Nat) : String := "roles[" ++ toString i ++ "]"

/-- `workflow.phases[{i}]` document path. -/
def phasePath (i : Nat) : String := "workflow.phases[" ++ toString i ++ "]"

/-- `role.get('id', i)` rendered into a message. -/
def ridOr (r : Role) (i : Nat) : String :=
  match r.id with
  | some s => s
  | none => toString i

/-- `role.get('id')` rendered into a message (Python renders `None`). -/
def ridStr (r : Role) : String := r.id.getD "None"

/- Issue constructors, one per `_add_issue` call site of the source. -/

/-- Missing required top-level field. -/
def missing_field_issue (f : String) : Issue :=
  ⟨.ERROR, "structure", "Missing required field: " ++ f,
   some ("Add '" ++ f ++ "' to your configuration"), some f⟩

/-- Empty team name. -/
def team_name_issue : Issue :=
  ⟨.ERROR, "structure", "Team name must be a non-empty string",
   some "Provide a descriptive team name", none⟩

/-- Empty roles list. -/
def empty_roles_issue : Issue :=
  ⟨.ERROR, "roles", "Team must have at least one role",
   some "Add role definitions to your team", none⟩

/-- Role without an `id`. -/
def missing_id_issue (i : Nat) : Issue :=
  ⟨.ERROR, "roles", "Role at index " ++ toString i ++ " missing 'id' field",
   some "Add unique identifier for the role", some (rolePath i)⟩

/-- Duplicate role id. -/
def dup_role_issue (rid : String) (i : Nat) : Issue :=
  ⟨.ERROR, "roles", "Duplicate role ID: " ++ rid,
   some "Ensure all role IDs are unique", some (rolePath i)⟩

/-- Model outside the enum. -/
def invalid_model_issue (m who : String) (i : Nat) : Issue :=
  ⟨.ERROR, "roles", "Invalid model '" ++ m ++ "' for role " ++ who,
   some "Use one of: opus, sonnet, haiku", some (rolePath i ++ ".model")⟩

/-- Model-fit optimization hint. -/
def opt_model_issue (rid m sug tpe : String) (i : Nat) : Issue :=
  ⟨.INFO, "optimization",
   "Role '" ++ rid ++ "' uses " ++ m ++ ", but " ++ sug ++ " might be more cost-effective",
   some ("Consider using " ++ sug ++ " for " ++ tpe ++ " roles"),
   some (rolePath i ++ ".model")⟩

/-- Missing or empty responsibilities. -/
def resp_issue (rid : String) (i : Nat) : Issue :=
  ⟨.WARNING, "roles", "Role '" ++ rid ++ "' has no defined responsibilities",
   some "Add clear responsibilities for better task allocation",
   some (rolePath i ++ ".responsibilities")⟩

/-- Team larger than 15 roles. -/
def large_team_issue (n : Nat) : Issue :=
  ⟨.WARNING, "roles",
   "Large team size (" ++ toString n ++ ") may cause coordination overhead",
   some "Consider splitting into smaller sub-teams", some "roles"⟩

/-- Team smaller than 3 roles. -/
def small_team_issue (n : Nat) : Issue :=
  ⟨.INFO, "roles", "Small team size (" ++ toString n ++ ") may limit parallelization",
   some "Consider if additional roles would help", some "roles"⟩

/-- Workflow without phases. -/
def no_phases_issue : Issue :=
  ⟨.WARNING, "workflow", "No workflow phases defined",
   some "Define phases for better task organization", some "workflow.phases"⟩

/-- Phase without a name. -/
def missing_name_issue (i : Nat) : Issue :=
  ⟨.ERROR, "workflow", "Phase at index " ++ toString i ++ " missing 'name'",
   some "Add name for the phase", some (phasePath i)⟩

/-- Duplicate phase name. -/
def dup_phase_issue (nm : String) (i : Nat) : Issue :=
  ⟨.ERROR, "workflow", "Duplicate phase name: " ++ nm,
   some "Ensure phase names are unique", some (phasePath i ++ ".name")⟩

/-- Dependency on a phase name not yet registered. -/
def dep_issue (nm d : String) (i : Nat) : Issue :=
  ⟨.ERROR, "workflow", "Phase '" ++ nm ++ "' depends on undefined phase '" ++ d ++ "'",
   some ("Ensure '" ++ d ++ "' is defined before this phase"),
   some (phasePath i ++ ".dependencies")⟩

/-- Phase durations not summing to 100%. -/
def dur_warn_issue (t : Int) : Issue :=
  ⟨.WARNING, "workflow", "Phase durations sum to " ++ toString t ++ "%, not 100%",
   some "Adjust phase durations to sum to 100%", some "workflow.phases"⟩

/-- No communication block. -/
def no_comm_issue : Issue :=
  ⟨.INFO, "communication", "No communication protocols defined",
   some "Consider defining communication channels and protocols", none⟩

/-- No synchronous channel. -/
def no_sync_issue : Issue :=
  ⟨.WARNING, "communication", "No synchronous communication channel defined",
   some "Add at least one synchronous channel (e.g., daily standup)", none⟩

/-- Channel without a frequency. -/
def no_freq_issue (who : String) (i : Nat) : Issue :=
  ⟨.INFO, "communication", "Channel '" ++ who ++ "' has no defined frequency",
   some "Specify communication frequency",
   some ("communication.channels[" ++ toString i ++ "].frequency")⟩

/-- `reports_to` target not a declared role id. -/
def ref_issue (rid sup : String) : Issue :=
  ⟨.ERROR, "dependencies", "Role '" ++ rid ++ "' reports to undefined role '" ++ sup ++ "'",
   some ("Ensure '" ++ sup ++ "' is defined in roles"),
   some ("roles." ++ rid ++ ".reports_to")⟩

/-- Cycle in the reporting relation. -/
def circular_issue : Issue :=
  ⟨.ERROR, "dependencies", "Circular reporting dependency detected",
   some "Remove circular dependencies in reporting structure", none⟩

/-- Unknown token budget. -/
def bad_budget_issue (b : String) : Issue :=
  ⟨.WARNING, "resources", "Unknown token budget '" ++ b ++ "'",
   some "Use one of: premium, balanced, economic", some "token_budget"⟩

/-- Economic budget with several Opus agents. -/
def econ_issue (n : Nat) : Issue :=
  ⟨.WARNING, "resources",
   "Economic budget with " ++ toString n ++ " Opus agents may be expensive",
   some "Consider using more Sonnet/Haiku models", some "roles"⟩

/-- Premium budget with few Opus agents. -/
def prem_issue : Issue :=
  ⟨.INFO, "resources", "Premium budget allows for more Opus agents if needed",
   some "Consider using Opus for critical decision-making roles", none⟩

/-- No quality gates. -/
def qg_issue : Issue :=
  ⟨.INFO, "best-practices", "No quality gates defined",
   some "Consider adding quality checkpoints", none⟩

/-- No error recovery strategy. -/
def er_issue : Issue :=
  ⟨.WARNING, "best-practices", "No error recovery strategy defined",
   some "Add error recovery mechanisms for resilience", none⟩

/-- No success metrics. -/
def sm_issue : Issue :=
  ⟨.INFO, "best-practices", "No success metrics defined",
   some "Define measurable success criteria", none⟩

/-- No parallel phases. -/
def par_issue : Issue :=
  ⟨.INFO, "optimization", "No parallel phases detected in workflow",
   some "Consider parallelizing independent tasks for faster completion", none⟩

/-- `_validate_structure`: required top-level keys in declaration order, then
the non-empty team-name check. -/
def validate_structure (c : Config) : List Issue :=
  (if c.name.isNone then [missing_field_issue "name"] else []) ++
  (if c.roles.isNone then [missing_field_issue "roles"] else []) ++
  (if c.workflow.isNone then [missing_field_issue "workflow"] else []) ++
  (match c.name with
   | some nm => if nm = "" then [team_name_issue] else []
   | none => [])

/-- The id block of the per-role loop of `_validate_roles`: presence,
uniqueness, and the id-set update (the set is extended in the `else` branch
only). -/
def idCheck (i : Nat) (ids : List String) (r : Role) : List Issue × List String :=
  match r.id with
  | none => ([missing_id_issue i], ids)
  | some rid => ((if rid ∈ ids then [dup_role_issue rid i] else []), setAdd ids rid)

/-- The model block of the per-role loop: enum validity, then the model-fit
hint (`_suggest_model` never returns a falsy value, so the hint fires exactly
when the configured model differs from the suggestion). -/
def modelCheck (i : Nat) (r : Role) : List Issue :=
  match r.model with
  | none => []
  | some m =>
    (if m ∉ ["opus", "sonnet", "haiku"] then [invalid_model_issue m (ridOr r i) i] else []) ++
    (if m ≠ suggest_model (r.type.getD "") then
       [opt_model_issue (ridStr r) m (suggest_model (r.type.getD "")) (r.type.getD "") i]
     else [])

/-- The responsibilities block of the per-role loop: absent or empty. -/
def respCheck (i : Nat) (r : Role) : List Issue :=
  match r.responsibilities with
  | none => [resp_issue (ridStr r) i]
  | some rr => if rr = [] then [resp_issue (ridStr r) i] else []

/-- Body of the per-role loop of `_validate_roles`: the three blocks in
source order, and the id set afterwards. -/
def roleStep (i : Nat) (ids : List String) (r : Role) : List Issue × List String :=
  ((idCheck i ids r).1 ++ modelCheck i r ++ respCheck i r, (idCheck i ids r).2)

/-- The per-role loop of `_validate_roles`. -/
def rolesLoop : Nat → List String → List Role → List Issue
  | _, _, [] => []
  | i, ids, r :: rs =>
    let s := roleStep i ids r
    s.1 ++ rolesLoop (i + 1) s.2 rs

/-- Team-size heuristics after the role loop. -/
def sizeIssues (n : Nat) : List Issue :=
  if n > 15 then [large_team_issue n]
  else if n < 3 then [small_team_issue n]
  else []

/-- `_validate_roles`. -/
def validate_roles (c : Config) : List Issue :=
  match c.roles with
  | none => []
  | some rs =>
    if rs = [] then [empty_roles_issue]
    else rolesLoop 0 [] rs ++ sizeIssues rs.length

/-- Contribution of one phase's `duration` to the running total: a string
ending in `%` whose front parses as an integer. -/
def durContr (p : Phase) : Int :=
  match p.duration with
  | none => 0
  | some dur =>
    if endsPercent dur then
      match pyInt (dropLastChar dur) with
      | some v => v
      | none => 0
    else 0

/-- The name block of the per-phase loop of `_validate_workflow`: presence
and uniqueness; the name is registered before the dependency check. -/
def nameCheck (i : Nat) (names : List String) (p : Phase) : List Issue × List String :=
  match p.name with
  | none => ([missing_name_issue i], names)
  | some nm => ((if nm ∈ names then [dup_phase_issue nm i] else []), setAdd names nm)

/-- The dependency block of the per-phase loop, checked against the name set
`names2` that already contains the current phase's own name. -/
def depCheck (i : Nat) (names2 : List String) (p : Phase) : List Issue :=
  match p.dependencies with
  | none => []
  | some ds =>
    (ds.filter (fun d => decide (d ∉ names2))).map
      (fun d => dep_issue (p.name.getD "None") d i)

/-- Body of the per-phase loop of `_validate_workflow`: name block,
dependency block, duration accumulation. -/
def phaseStep (i : Nat) (names : List String) (total : Int) (p : Phase) :
    List Issue × List String × Int :=
  ((nameCheck i names p).1 ++ depCheck i (nameCheck i names p).2 p,
   (nameCheck i names p).2, total + durContr p)

/-- The per-phase loop of `_validate_workflow`. -/
def wfLoop : Nat → List String → Int → List Phase → List Issue × List String × Int
  | _, names, total, [] => ([], names, total)
  | i, names, total, p :: ps =>
    let s := phaseStep i names total p
    let t := wfLoop (i + 1) s.2.1 s.2.2 ps
    (s.1 ++ t.1, t.2)

/-- `_validate_workflow`. -/
def validate_workflow (c : Config) : List Issue :=
  match c.workflow with
  | none => []
  | some wf =>
    match wf.phases with
    | none => [no_phases_issue]
    | some ps =>
      (wfLoop 0 [] 0 ps).1 ++
      (if 0 < (wfLoop 0 [] 0 ps).2.2 ∧ (wfLoop 0 [] 0 ps).2.2 ≠ 100 then
         [dur_warn_issue (wfLoop 0 [] 0 ps).2.2]
       else [])

/-- `channel.get('name', i)` rendered into a message. -/
def chName (ch : Channel) (i : Nat) : String :=
  match ch.name with
  | some s => s
  | none => toString i

/-- The per-channel frequency loop of `_validate_communication`. -/
def chanLoop : Nat → List Channel → List Issue
  | _, [] => []
  | i, ch :: chs =>
    (if ch.frequency.isNone then [no_freq_issue (chName ch i) i] else []) ++
    chanLoop (i + 1) chs

/-- `_validate_communication`. -/
def validate_communication (c : Config) : List Issue :=
  match c.communication with
  | none => [no_comm_issue]
  | some comm =>
    match comm.channels with
    | none => []
    | some chans =>
      (if chans.any (fun ch => ch.type == some "synchronous") then []
       else [no_sync_issue]) ++
      chanLoop 0 chans

/-- The unresolved-`reports_to` loop of `_validate_dependencies`.  The error
message reads `role['id']` without a guard: a role that has `reports_to` but
no `id`, with an unresolved supervisor, raises `KeyError` (modelled as
`none`). -/
def depsRefLoop (ids : List String) : List Role → Option (List Issue)
  | [] => some []
  | r :: rs =>
    match r.reports_to with
    | none => depsRefLoop ids rs
    | some sup =>
      if sup ∈ ids then depsRefLoop ids rs
      else
        match r.id with
        | none => none
        | some rid => (depsRefLoop ids rs).map (fun l => ref_issue rid sup :: l)

/-- One insertion into the `reporting` dict: a later duplicate key overwrites
the value and keeps the key's first position. -/
def dictInsert (m : List (String × String)) (k v : String) : List (String × String) :=
  if k ∈ m.map Prod.fst then m.map (fun kv => if kv.1 = k then (k, v) else kv)
  else m ++ [(k, v)]

/-- The `reporting` dict comprehension: id-to-supervisor for every role that
declares both. -/
def reporting (roles : List Role) : List (String × String) :=
  roles.foldl
    (fun m r =>
      match r.id, r.reports_to with
      | some i, some s => dictInsert m i s
      | _, _ => m)
    []

/-- Dict lookup `graph[node]` / `node in graph`. -/
def lookupG (g : List (String × String)) (k : String) : Option String :=
  (g.find? (fun kv => decide (kv.1 = k))).map Prod.snd

/-- Fuel measure for `visit`: the keys of the graph not yet fully visited. -/
def keysNotVisited (g : List (String × String)) (visited : List String) : Nat :=
  ((g.map Prod.fst).filter (fun k => decide (k ∉ visited))).length

/-- `visit` of `has_cycle`: depth-first walk with a visited set and the
current recursion stack.  Adding the node to the stack is passing
`node :: recStack` down; removal on a `False` return is the caller keeping
its own stack; a `True` return aborts the whole search, so the stack is
never read again.  The fuel only bounds the recursion depth: every frame
that recurses marks a fresh graph key visited, so
`keysNotVisited g visited < fuel` keeps the zero-fuel branch unreachable. -/
def visit (g : List (String × String)) :
    Nat → List String → List String → String → Bool × List String
  | 0, visited, _, _ => (false, visited)
  | fuel + 1, visited, recStack, node =>
    if node ∈ recStack then (true, visited)
    else if node ∈ visited then (false, visited)
    else
      match lookupG g node with
      | some nxt => visit g fuel (node :: visited) (node :: recStack) nxt
      | none => (false, node :: visited)

/-- The outer loop of `has_cycle` over the graph's keys, threading the
visited set. -/
def hcLoop (g : List (String × String)) : List String → List String → Bool
  | [], _ => false
  | k :: ks, visited =>
    if k ∈ visited then hcLoop g ks visited
    else
      let r := visit g (g.length + 1) visited [] k
      if r.1 then true else hcLoop g ks r.2

/-- `has_cycle` of `_validate_dependencies`. -/
def has_cycle (g : List (String × String)) : Bool :=
  hcLoop g (g.map Prod.fst) []

/-- The reporting relation a configuration builds (empty when `roles` is
absent). -/
def reportingOf (c : Config) : List (String × String) :=
  reporting (c.roles.getD [])

/-- `_validate_dependencies`: unresolved `reports_to` targets, then one cycle
issue when `has_cycle` holds over the reporting relation. -/
def validate_dependencies (c : Config) : Option (List Issue) :=
  match c.roles with
  | none => some []
  | some roles =>
    let ids := roles.filterMap Role.id
    (depsRefLoop ids roles).map
      (fun refs => refs ++ (if has_cycle (reporting roles) then [circular_issue] else []))

/-- `_validate_resources`. -/
def validate_resources (c : Config) : List Issue :=
  (match c.token_budget with
   | none => []
   | some b =>
     if b ∉ ["premium", "balanced", "economic"] then [bad_budget_issue b] else []) ++
  (match c.roles, c.token_budget with
   | some roles, some b =>
     let opus_count := roles.countP (fun r => r.model == some "opus")
     if b = "economic" ∧ opus_count > 1 then [econ_issue opus_count]
     else if b = "premium" ∧ opus_count < 2 then [prem_issue]
     else []
   | _, _ => [])

/-- Python `repr` of a string value inside `str(dict)` (quote escaping inside
the value is not modelled; no claim touches it). -/
def pyRepr (s : String) : String := "'" ++ s ++ "'"

/-- `str(phase)`: the Python dict rendering of a phase record, keys in the
modelled field order. -/
def pyStrPhase (p : Phase) : String :=
  let fields : List String :=
    (match p.name with
     | some nm => ["'name': " ++ pyRepr nm]
     | none => []) ++
    (match p.dependencies with
     | some ds => ["'dependencies': [" ++ String.intercalate ", " (ds.map pyRepr) ++ "]"]
     | none => []) ++
    (match p.duration with
     | some d => ["'duration': " ++ pyRepr d]
     | none => [])
  "\x7b" ++ String.intercalate ", " fields ++ "\x7d"

/-- `_validate_best_practices`. -/
def validate_best_practices (c : Config) : List Issue :=
  (if c.quality_gates then [] else [qg_issue]) ++
  (if c.error_recovery then [] else [er_issue]) ++
  (if c.success_metrics then [] else [sm_issue]) ++
  (match c.workflow with
   | none => []
   | some wf =>
     match wf.phases with
     | none => []
     | some phases =>
       let has_parallel := phases.any (fun p => strContains (pyStrPhase p) "parallel")
       if ¬ has_parallel ∧ phases.length > 3 then [par_issue] else [])

/-- `validate`, starting from the accumulated issue list of the validator
object; the source's first statement resets that list, so the parameter is
discarded.  `none` is the `KeyError` of `_validate_dependencies` escaping. -/
def runValidate (_prevIssues : List Issue) (c : Config) : Option (Bool × List Issue) :=
  match validate_dependencies c with
  | none => none
  | some d =>
    let issues :=
      validate_structure c ++ validate_roles c ++ validate_workflow c ++
      validate_communication c ++ d ++ validate_resources c ++ validate_best_practices c
    some (!(issues.any (fun i => i.level == .ERROR)), issues)

/-- `validate` on a fresh validator. -/
def validate (c : Config) : Option (Bool × List Issue) :=
  runValidate [] c

/-! ### Spec-side definitions

These follow the words of the specification and of the claims; they are
compared with the source-derived definitions above. -/

/-- Following the reporting relation `k` steps from `x` (`none` once the
chain leaves the relation's keys). -/
def iterG (g : List (String × String)) : Nat → String → Option String
  | 0, x => some x
  | n + 1, x => (iterG g n x).bind (lookupG g)

/-- The node `x` lies on a cycle of the reporting relation: following the
relation some positive number of steps returns to `x`. -/
def OnCycle (g : List (String × String)) (x : String) : Prop :=
  ∃ k, 1 ≤ k ∧ iterG g k x = some x

/-- The reporting relation contains a cycle. -/
def Cyclic (g : List (String × String)) : Prop :=
  ∃ x, OnCycle g x

/-- Some node on a cycle is reachable from `x`. -/
def ReachesCycle (g : List (String × String)) (x : String) : Prop :=
  ∃ k y, iterG g k x = some y ∧ OnCycle g y

/-- The recursion stack of `visit` is a chain of the relation ending at the
current node: the head is the current node's parent, and so on down. -/
inductive PathTo (g : List (String × String)) : List String → String → Prop
  | nil (n : String) : PathTo g [] n
  | cons {p n : String} {rest : List String} :
      lookupG g p = some n → PathTo g rest p → PathTo g (p :: rest) n

/-- Registering a phase's name (when present) in the seen-name set. -/
def addNm (names : List String) : Option String → List String
  | none => names
  | some nm => setAdd names nm

/-- A phase's dependency list (empty when the key is absent). -/
def depsOf (p : Phase) : List String :=
  match p.dependencies with
  | none => []
  | some ds => ds

/-- Dependency-resolution errors as the claim words them: a dependency is an
error when its name was not declared by a phase strictly earlier in the
sequence (a phase's own name does not count for its own dependencies). -/
def claimDepErrsFrom (names : List String) : List Phase → Nat
  | [] => 0
  | p :: ps =>
    (depsOf p).countP (fun d => decide (d ∉ names)) +
    claimDepErrsFrom (addNm names p.name) ps

/-- Dependency-resolution errors as the code computes them: the current
phase's own name is registered before its dependencies are checked. -/
def codeDepErrsFrom (names : List String) : List Phase → Nat
  | [] => 0
  | p :: ps =>
    (depsOf p).countP (fun d => decide (d ∉ addNm names p.name)) +
    codeDepErrsFrom (addNm names p.name) ps

/-- Sum of the parseable percentage durations of a phase list. -/
def durSum : List Phase → Int
  | [] => 0
  | p :: ps => durContr p + durSum ps

/-! ### String and list lemmas -/

theorem strdata_append (a b : String) : (a ++ b).data = a.data ++ b.data := rfl

theorem listPre_self_append (n s : List Char) : listPre n (n ++ s) = true := by
  induction n with
  | nil => rfl
  | cons a as ih => simp [listPre, ih]

theorem listPre_mismatch (n l s : List Char) (h1 : listPre n l = false)
    (h2 : listPre l n = false) : listPre n (l ++ s) = false := by
  induction n generalizing l with
  | nil => simp [listPre] at h1
  | cons a as ih =>
    cases l with
    | nil => simp [listPre] at h2
    | cons b bs =>
      simp only [listPre, Bool.and_eq_false_iff] at h1 h2 ⊢
      rcases h1 with h1 | h1
      · left
        simpa [BEq.comm] using h1
      · rcases h2 with h2 | h2
        · left
          simpa [BEq.comm] using h2
        · right
          exact ih bs h1 h2

theorem setAdd_mem (s : List String) (x y : String) :
    y ∈ setAdd s x ↔ y ∈ s ∨ y = x := by
  unfold setAdd
  split
  · constructor
    · intro h
      exact Or.inl h
    · rintro (h | rfl)
      · exact h
      · assumption
  · simp

/-! ### Orbit lemmas for the reporting relation -/

theorem iterG_succ_front (g : List (String × String)) (n : Nat) (x : String) :
    iterG g (n + 1) x = (lookupG g x).bind (iterG g n) := by
  induction n generalizing x with
  | zero =>
    show (iterG g 0 x).bind (lookupG g) = _
    cases h : lookupG g x <;> simp [iterG, h]
  | succ m ih =>
    show (iterG g (m + 1) x).bind (lookupG g) = _
    rw [ih]
    cases h : lookupG g x with
    | none => simp
    | some y => simp [iterG]

theorem pathTo_mem (g : List (String × String)) {s : List String} {n x : String}
    (hp : PathTo g s n) (hx : x ∈ s) : ∃ k, 1 ≤ k ∧ iterG g k x = some n := by
  induction hp with
  | nil => cases hx
  | cons hl hrest ih =>
    rcases List.mem_cons.mp hx with rfl | hx
    · exact ⟨1, le_refl 1, by simp [iterG, hl]⟩
    · obtain ⟨k, hk1, hk⟩ := ih hx
      exact ⟨k + 1, Nat.le_succ_of_le hk1, by simp [iterG, hk, hl]⟩

theorem onCycle_lookup (g : List (String × String)) {x : String}
    (h : OnCycle g x) : ∃ y, lookupG g x = some y := by
  obtain ⟨k, hk1, hk⟩ := h
  obtain ⟨m, rfl⟩ := Nat.exists_eq_add_of_le hk1
  rw [Nat.add_comm, iterG_succ_front] at hk
  cases hl : lookupG g x with
  | none => rw [hl] at hk; simp at hk
  | some y => exact ⟨y, rfl⟩

theorem onCycle_next (g : List (String × String)) {x y : String}
    (hl : lookupG g x = some y) (h : OnCycle g x) : OnCycle g y := by
  obtain ⟨k, hk1, hk⟩ := h
  obtain ⟨m, rfl⟩ := Nat.exists_eq_add_of_le hk1
  rw [Nat.add_comm, iterG_succ_front, hl] at hk
  simp only [Option.some_bind] at hk
  refine ⟨m + 1, Nat.le_add_left 1 m, ?_⟩
  show (iterG g m y).bind (lookupG g) = some y
  rw [hk]
  simpa using hl

theorem lookupG_mem_keys (g : List (String × String)) {x y : String}
    (h : lookupG g x = some y) : x ∈ g.map Prod.fst := by
  unfold lookupG at h
  cases hf : g.find? (fun kv => decide (kv.1 = x)) with
  | none => rw [hf] at h; simp at h
  | some kv =>
    have hmem := List.mem_of_find?_eq_some hf
    have hpred := List.find?_some hf
    simp only [decide_eq_true_eq] at hpred
    exact List.mem_map.mpr ⟨kv, hmem, hpred⟩

theorem reachesCycle_of_onCycle (g : List (String × String)) {x : String}
    (h : OnCycle g x) : ReachesCycle g x :=
  ⟨0, x, rfl, h⟩

theorem not_reachesCycle_of_lookup_none (g : List (String × String)) {x : String}
    (hl : lookupG g x = none) : ¬ ReachesCycle g x := by
  rintro ⟨k, y, hk, hy⟩
  cases k with
  | zero =>
    simp only [iterG, Option.some_inj] at hk
    subst hk
    obtain ⟨z, hz⟩ := onCycle_lookup g hy
    rw [hl] at hz
    cases hz
  | succ m =>
    rw [iterG_succ_front, hl] at hk
    cases hk

theorem reachesCycle_next (g : List (String × String)) {x y : String}
    (hl : lookupG g x = some y) : ReachesCycle g x ↔ ReachesCycle g y := by
  constructor
  · rintro ⟨k, z, hk, hz⟩
    cases k with
    | zero =>
      simp only [iterG, Option.some_inj] at hk
      subst hk
      exact ⟨0, y, rfl, onCycle_next g hl hz⟩
    | succ m =>
      rw [iterG_succ_front, hl] at hk
      exact ⟨m, z, hk, hz⟩
  · rintro ⟨k, z, hk, hz⟩
    refine ⟨k + 1, z, ?_, hz⟩
    rw [iterG_succ_front, hl]
    exact hk

/-! ### Fuel bookkeeping for the depth-first search -/

theorem filter_len_le {p q : String → Bool} (l : List String)
    (h : ∀ a, p a = true → q a = true) :
    (l.filter p).length ≤ (l.filter q).length := by
  induction l with
  | nil => simp
  | cons a t ih =>
    by_cases hp : p a = true
    · rw [List.filter_cons_of_pos hp, List.filter_cons_of_pos (h a hp)]
      simpa using ih
    · rw [List.filter_cons_of_neg (by simpa using hp)]
      by_cases hq : q a = true
      · rw [List.filter_cons_of_pos hq]
        exact Nat.le_succ_of_le ih
      · rw [List.filter_cons_of_neg (by simpa using hq)]
        exact ih

theorem keysNotVisited_lt (g : List (String × String)) {visited : List String}
    {x : String} (hx : x ∈ g.map Prod.fst) (hnv : x ∉ visited) :
    keysNotVisited g (x :: visited) < keysNotVisited g visited := by
  unfold keysNotVisited
  revert hx
  generalize g.map Prod.fst = l
  intro hx
  induction l with
  | nil => cases hx
  | cons a t ih =>
    by_cases hax : a = x
    · subst hax
      rw [List.filter_cons_of_neg (by simp), List.filter_cons_of_pos (by simpa using hnv)]
      refine Nat.lt_succ_of_le (filter_len_le t ?_)
      intro b hb
      simp only [decide_eq_true_eq] at hb ⊢
      intro hbv
      exact hb (List.mem_cons_of_mem _ hbv)
    · have hxt : x ∈ t := by
        rcases List.mem_cons.mp hx with h | h
        · exact absurd h.symm hax
        · exact h
      by_cases hav : a ∈ visited
      · rw [List.filter_cons_of_neg (by simp [List.mem_cons, hav]),
            List.filter_cons_of_neg (by simp [hav])]
        exact ih hxt
      · rw [List.filter_cons_of_pos (by simp [List.mem_cons, hax, hav]),
            List.filter_cons_of_pos (by simpa using hav)]
        exact Nat.succ_lt_succ (ih hxt)

theorem keysNotVisited_le (g : List (String × String)) (visited : List String) :
    keysNotVisited g visited ≤ g.length := by
  unfold keysNotVisited
  calc ((g.map Prod.fst).filter _).length ≤ (g.map Prod.fst).length :=
        List.length_filter_le _ _
    _ = g.length := List.length_map _ _

/-! ### Correctness of the depth-first cycle search -/

theorem visit_sound (g : List (String × String)) :
    ∀ (fuel : Nat) (visited recStack : List String) (node : String),
    PathTo g recStack node → (visit g fuel visited recStack node).1 = true →
    Cyclic g := by
  intro fuel
  induction fuel with
  | zero =>
    intro visited recStack node _ h
    simp [visit] at h
  | succ m ih =>
    intro visited recStack node hp h
    by_cases h1 : node ∈ recStack
    · obtain ⟨k, hk1, hk⟩ := pathTo_mem g hp h1
      exact ⟨node, k, hk1, hk⟩
    · by_cases h2 : node ∈ visited
      · simp [visit, h1, h2] at h
      · simp only [visit, if_neg h1, if_neg h2] at h
        cases hl : lookupG g node with
        | none => rw [hl] at h; simp at h
        | some nxt =>
          rw [hl] at h
          exact ih (node :: visited) (node :: recStack) nxt (.cons hl hp) h

theorem visit_false (g : List (String × String)) :
    ∀ (fuel : Nat) (visited recStack : List String) (node : String),
    keysNotVisited g visited < fuel →
    (∀ v ∈ visited, v ∉ recStack → ¬ ReachesCycle g v) →
    (visit g fuel visited recStack node).1 = false →
    (∀ v ∈ (visit g fuel visited recStack node).2, v ∉ recStack → ¬ ReachesCycle g v) ∧
      node ∈ (visit g fuel visited recStack node).2 ∧
      visited ⊆ (visit g fuel visited recStack node).2 := by
  intro fuel
  induction fuel with
  | zero =>
    intro visited recStack node hb _ _
    exact absurd hb (Nat.not_lt_zero _)
  | succ m ih =>
    intro visited recStack node hb hinv h
    by_cases h1 : node ∈ recStack
    · simp [visit, h1] at h
    · by_cases h2 : node ∈ visited
      · simp only [visit, if_neg h1, if_pos h2]
        exact ⟨hinv, h2, fun v hv => hv⟩
      · simp only [visit, if_neg h1, if_neg h2] at h ⊢
        cases hl : lookupG g node with
        | none =>
          rw [hl] at h
          refine ⟨?_, List.mem_cons_self _ _, fun v hv => List.mem_cons_of_mem _ hv⟩
          intro v hv hvr
          rcases List.mem_cons.mp hv with rfl | hv
          · exact not_reachesCycle_of_lookup_none g hl
          · exact hinv v hv hvr
        | some nxt =>
          rw [hl] at h
          have hkey : node ∈ g.map Prod.fst := lookupG_mem_keys g hl
          have hb2 : keysNotVisited g (node :: visited) < m :=
            Nat.lt_of_lt_of_le (keysNotVisited_lt g hkey h2) (Nat.lt_succ_iff.mp hb)
          have hm1 : 1 ≤ m := Nat.lt_of_le_of_lt (Nat.zero_le _) hb2
          by_cases hn : nxt ∈ node :: recStack
          · exfalso
            obtain ⟨m', rfl⟩ := Nat.exists_eq_add_of_le hm1
            rw [Nat.add_comm] at h
            simp [visit, hn] at h
          · have hinv2 : ∀ v ∈ node :: visited, v ∉ node :: recStack →
                ¬ ReachesCycle g v := by
              intro v hv hvr
              rcases List.mem_cons.mp hv with rfl | hv
              · exact absurd (List.mem_cons_self _ _) hvr
              · exact hinv v hv (fun hc => hvr (List.mem_cons_of_mem _ hc))
            obtain ⟨inv', hmem, hsub⟩ :=
              ih (node :: visited) (node :: recStack) nxt hb2 hinv2 h
            have hRCnxt : ¬ ReachesCycle g nxt := inv' nxt hmem hn
            have hRCnode : ¬ ReachesCycle g node := by
              intro hc
              exact hRCnxt ((reachesCycle_next g hl).mp hc)
            refine ⟨?_, hsub (List.mem_cons_self _ _),
              fun v hv => hsub (List.mem_cons_of_mem _ hv)⟩
            intro v hv hvr
            by_cases hvn : v = node
            · subst hvn
              exact hRCnode
            · exact inv' v hv (by simp [hvn, hvr])

theorem hcLoop_true (g : List (String × String)) :
    ∀ (ks visited : List String), hcLoop g ks visited = true → Cyclic g := by
  intro ks
  induction ks with
  | nil =>
    intro visited h
    simp [hcLoop] at h
  | cons k ks ih =>
    intro visited h
    by_cases hk : k ∈ visited
    · rw [hcLoop, if_pos hk] at h
      exact ih visited h
    · rw [hcLoop, if_neg hk] at h
      by_cases hv : (visit g (g.length + 1) visited [] k).1 = true
      · exact visit_sound g _ visited [] k (.nil k) hv
      · rw [if_neg hv] at h
        exact ih _ h

theorem hcLoop_false (g : List (String × String)) :
    ∀ (ks visited : List String),
    (∀ v ∈ visited, ¬ ReachesCycle g v) → hcLoop g ks visited = false →
    ∃ visited', (∀ v ∈ visited', ¬ ReachesCycle g v) ∧
      (∀ k ∈ ks, k ∈ visited') ∧ visited ⊆ visited' := by
  intro ks
  induction ks with
  | nil =>
    intro visited hinv _
    exact ⟨visited, hinv, by simp, fun v hv => hv⟩
  | cons k ks ih =>
    intro visited hinv h
    by_cases hk : k ∈ visited
    · rw [hcLoop, if_pos hk] at h
      obtain ⟨v', hinv', hall, hsub⟩ := ih visited hinv h
      refine ⟨v', hinv', ?_, hsub⟩
      intro a ha
      rcases List.mem_cons.mp ha with rfl | ha
      · exact hsub hk
      · exact hall a ha
    · rw [hcLoop, if_neg hk] at h
      by_cases hv : (visit g (g.length + 1) visited [] k).1 = true
      · rw [if_pos hv] at h
        cases h
      · rw [if_neg (by simpa using hv)] at h
        have hb : keysNotVisited g visited < g.length + 1 :=
          Nat.lt_succ_of_le (keysNotVisited_le g visited)
        obtain ⟨inv', hmem, hsub⟩ := visit_false g (g.length + 1) visited [] k hb
          (fun v hvv _ => hinv v hvv) (Bool.not_eq_true _ ▸ by simpa using hv)
        obtain ⟨v', hinv', hall, hsub'⟩ :=
          ih _ (fun v hvv => inv' v hvv (by simp)) h
        refine ⟨v', hinv', ?_, fun v hvv => hsub' (hsub hvv)⟩
        intro a ha
        rcases List.mem_cons.mp ha with rfl | ha
        · exact hsub' hmem
        · exact hall a ha

theorem has_cycle_iff (g : List (String × String)) :
    has_cycle g = true ↔ Cyclic g := by
  constructor
  · exact hcLoop_true g _ []
  · intro hcyc
    by_contra hfalse
    have hf : hcLoop g (g.map Prod.fst) [] = false :=
      Bool.not_eq_true _ ▸ (by simpa [has_cycle] using hfalse)
    obtain ⟨v', hinv', hall, _⟩ := hcLoop_false g _ [] (by simp) hf
    obtain ⟨x, hx⟩ := hcyc
    obtain ⟨y, hy⟩ := onCycle_lookup g hx
    exact hinv' x (hall x (lookupG_mem_keys g hy)) (reachesCycle_of_onCycle g hx)

/-! ### Issue predicates used by the claims -/

/-- The cycle ERROR of `_validate_dependencies`. -/
def isCycleIssue (i : Issue) : Bool :=
  decide (i.category = "dependencies" ∧ i.message = "Circular reporting dependency detected")

/-- A duplicate-role-id ERROR. -/
def isDupRoleIssue (i : Issue) : Bool :=
  decide (i.category = "roles") && listPre "Duplicate role ID: ".data i.message.data

/-- An undefined-phase-dependency ERROR. -/
def isDepErrIssue (i : Issue) : Bool :=
  decide (i.category = "workflow") && listPre "Phase '".data i.message.data

/-- The duration-sum WARNING. -/
def isDurWarnIssue (i : Issue) : Bool :=
  decide (i.category = "workflow") && listPre "Phase durations sum to ".data i.message.data

/-- A model-fit INFO. -/
def isOptInfoIssue (i : Issue) : Bool :=
  decide (i.level = .INFO ∧ i.category = "optimization")

/-! ### Prefix facts about the message templates -/

theorem ne_of_pre {n : List Char} {x y : String} (hx : listPre n x.data = true)
    (hy : listPre n y.data = false) : x ≠ y := by
  intro h
  rw [h, hy] at hx
  cases hx

theorem listPre_mismatch' (n l : String) (s : List Char)
    (h1 : listPre n.data l.data = false) (h2 : listPre l.data n.data = false) :
    listPre n.data (l.data ++ s) = false :=
  listPre_mismatch _ _ _ h1 h2

/-! ### Category of each rule's issues -/

theorem structure_cat (c : Config) : ∀ i ∈ validate_structure c, i.category = "structure" := by
  intro i hi
  unfold validate_structure at hi
  simp only [List.mem_append] at hi
  rcases hi with ((h | h) | h) | h <;>
    (split at h <;> simp_all [missing_field_issue, team_name_issue])

theorem idCheck_cat (i : Nat) (ids : List String) (r : Role) :
    ∀ x ∈ (idCheck i ids r).1, x.category = "roles" := by
  intro x hx
  unfold idCheck at hx
  split at hx <;> simp_all [missing_id_issue, dup_role_issue]

theorem modelCheck_cat (i : Nat) (r : Role) :
    ∀ x ∈ modelCheck i r, x.category = "roles" ∨ x.category = "optimization" := by
  intro x hx
  unfold modelCheck at hx
  split at hx
  · cases hx
  · simp only [List.mem_append] at hx
    rcases hx with h | h <;> split at h <;>
      simp_all [invalid_model_issue, opt_model_issue]

theorem respCheck_cat (i : Nat) (r : Role) :
    ∀ x ∈ respCheck i r, x.category = "roles" := by
  intro x hx
  unfold respCheck at hx
  split at hx <;> simp_all [resp_issue]

theorem rolesLoop_cat :
    ∀ (rs : List Role) (i : Nat) (ids : List String),
    ∀ x ∈ rolesLoop i ids rs, x.category = "roles" ∨ x.category = "optimization" := by
  intro rs
  induction rs with
  | nil => intro i ids x hx; cases hx
  | cons r rest ih =>
    intro i ids x hx
    simp only [rolesLoop, roleStep, List.mem_append] at hx
    rcases hx with ((h | h) | h) | h
    · exact Or.inl (idCheck_cat i ids r x h)
    · exact modelCheck_cat i r x h
    · exact Or.inl (respCheck_cat i r x h)
    · exact ih _ _ x h

theorem roles_cat (c : Config) :
    ∀ i ∈ validate_roles c, i.category = "roles" ∨ i.category = "optimization" := by
  intro i hi
  unfold validate_roles at hi
  split at hi
  · cases hi
  · split at hi
    · simp_all [empty_roles_issue]
    · simp only [List.mem_append] at hi
      rcases hi with h | h
      · exact rolesLoop_cat _ _ _ i h
      · unfold sizeIssues at h
        split at h <;> simp_all [large_team_issue, small_team_issue]

theorem nameCheck_cat (i : Nat) (names : List String) (p : Phase) :
    ∀ x ∈ (nameCheck i names p).1, x.category = "workflow" := by
  intro x hx
  unfold nameCheck at hx
  split at hx <;> simp_all [missing_name_issue, dup_phase_issue]

theorem depCheck_cat (i : Nat) (names2 : List String) (p : Phase) :
    ∀ x ∈ depCheck i names2 p, x.category = "workflow" := by
  intro x hx
  unfold depCheck at hx
  split at hx
  · cases hx
  · simp only [List.mem_map] at hx
    obtain ⟨d, _, rfl⟩ := hx
    rfl

theorem wfLoop_cat :
    ∀ (ps : List Phase) (i : Nat) (names : List String) (total : Int),
    ∀ x ∈ (wfLoop i names total ps).1, x.category = "workflow" := by
  intro ps
  induction ps with
  | nil => intro i names total x hx; cases hx
  | cons p rest ih =>
    intro i names total x hx
    simp only [wfLoop, phaseStep, List.mem_append] at hx
    rcases hx with (h | h) | h
    · exact nameCheck_cat i names p x h
    · exact depCheck_cat i _ p x h
    · exact ih _ _ _ x h

theorem workflow_cat (c : Config) : ∀ i ∈ validate_workflow c, i.category = "workflow" := by
  intro i hi
  unfold validate_workflow at hi
  split at hi
  · cases hi
  · split at hi
    · simp_all [no_phases_issue]
    · simp only [List.mem_append] at hi
      rcases hi with h | h
      · exact wfLoop_cat _ _ _ _ i h
      · split at h <;> simp_all [dur_warn_issue]

theorem chanLoop_cat :
    ∀ (chs : List Channel) (i : Nat),
    ∀ x ∈ chanLoop i chs, x.category = "communication" := by
  intro chs
  induction chs with
  | nil => intro i x hx; cases hx
  | cons ch rest ih =>
    intro i x hx
    simp only [chanLoop, List.mem_append] at hx
    rcases hx with h | h
    · split at h <;> simp_all [no_freq_issue]
    · exact ih _ x h

theorem communication_cat (c : Config) :
    ∀ i ∈ validate_communication c, i.category = "communication" := by
  intro i hi
  unfold validate_communication at hi
  split at hi
  · simp_all [no_comm_issue]
  · split at hi
    · cases hi
    · simp only [List.mem_append] at hi
      rcases hi with h | h
      · split at h <;> simp_all [no_sync_issue]
      · exact chanLoop_cat _ _ i h

theorem resources_cat (c : Config) : ∀ i ∈ validate_resources c, i.category = "resources" := by
  intro i hi
  unfold validate_resources at hi
  simp only [List.mem_append] at hi
  rcases hi with h | h
  · split at h
    · cases h
    · split at h <;> simp_all [bad_budget_issue]
  · split at h
    · split at h <;> simp_all [econ_issue, prem_issue]
    · cases h

theorem best_practices_cat (c : Config) :
    ∀ i ∈ validate_best_practices c,
    i.category = "best-practices" ∨ i.category = "optimization" := by
  intro i hi
  unfold validate_best_practices at hi
  simp only [List.mem_append] at hi
  rcases hi with ((h | h) | h) | h
  · split at h <;> simp_all [qg_issue]
  · split at h <;> simp_all [er_issue]
  · split at h <;> simp_all [sm_issue]
  · split at h
    · cases h
    · split at h
      · cases h
      · split at h <;> simp_all [par_issue]

theorem depsRefLoop_shape (ids : List String) :
    ∀ (rs : List Role) (l : List Issue), depsRefLoop ids rs = some l →
    ∀ i ∈ l, ∃ a b, i = ref_issue a b := by
  intro rs
  induction rs with
  | nil =>
    intro l hl i hi
    simp only [depsRefLoop, Option.some_inj] at hl
    subst hl
    cases hi
  | cons r rest ih =>
    intro l hl i hi
    unfold depsRefLoop at hl
    split at hl
    · exact ih l hl i hi
    · split at hl
      · exact ih l hl i hi
      · split at hl
        · cases hl
        · cases hrec : depsRefLoop ids rest with
          | none => rw [hrec] at hl; cases hl
          | some l0 =>
            rw [hrec] at hl
            simp at hl
            subst hl
            rcases List.mem_cons.mp hi with rfl | hi
            · exact ⟨_, _, rfl⟩
            · exact ih l0 hrec i hi

/-! ### Message prefix facts for the issue constructors -/

theorem pre_ref_msg (a b : String) :
    listPre "Role '".data (ref_issue a b).message.data = true := by
  show listPre "Role '".data
    ("Role '" ++ a ++ "' reports to undefined role '" ++ b ++ "'").data = true
  simp only [strdata_append, List.append_assoc]
  exact listPre_self_append _ _

theorem not_cycle_ref (a b : String) : isCycleIssue (ref_issue a b) = false := by
  unfold isCycleIssue
  rw [decide_eq_false_iff_not]
  rintro ⟨-, hmsg⟩
  exact ne_of_pre (pre_ref_msg a b) (by decide) hmsg

theorem cycle_circular : isCycleIssue circular_issue = true := by decide

/-! ### The cycle issue comes only from the dependency rule -/

theorem countP_cycle_structure (c : Config) :
    (validate_structure c).countP isCycleIssue = 0 := by
  rw [List.countP_eq_zero]
  intro i hi hp
  unfold isCycleIssue at hp
  rw [decide_eq_true_eq] at hp
  rw [structure_cat c i hi] at hp
  exact absurd hp.1 (by decide)

theorem countP_cycle_roles (c : Config) :
    (validate_roles c).countP isCycleIssue = 0 := by
  rw [List.countP_eq_zero]
  intro i hi hp
  unfold isCycleIssue at hp
  rw [decide_eq_true_eq] at hp
  rcases roles_cat c i hi with h | h <;> rw [h] at hp <;> exact absurd hp.1 (by decide)

theorem countP_cycle_workflow (c : Config) :
    (validate_workflow c).countP isCycleIssue = 0 := by
  rw [List.countP_eq_zero]
  intro i hi hp
  unfold isCycleIssue at hp
  rw [decide_eq_true_eq] at hp
  rw [workflow_cat c i hi] at hp
  exact absurd hp.1 (by decide)

theorem countP_cycle_communication (c : Config) :
    (validate_communication c).countP isCycleIssue = 0 := by
  rw [List.countP_eq_zero]
  intro i hi hp
  unfold isCycleIssue at hp
  rw [decide_eq_true_eq] at hp
  rw [communication_cat c i hi] at hp
  exact absurd hp.1 (by decide)

theorem countP_cycle_resources (c : Config) :
    (validate_resources c).countP isCycleIssue = 0 := by
  rw [List.countP_eq_zero]
  intro i hi hp
  unfold isCycleIssue at hp
  rw [decide_eq_true_eq] at hp
  rw [resources_cat c i hi] at hp
  exact absurd hp.1 (by decide)

theorem countP_cycle_best_practices (c : Config) :
    (validate_best_practices c).countP isCycleIssue = 0 := by
  rw [List.countP_eq_zero]
  intro i hi hp
  unfold isCycleIssue at hp
  rw [decide_eq_true_eq] at hp
  rcases best_practices_cat c i hi with h | h <;> rw [h] at hp <;>
    exact absurd hp.1 (by decide)

theorem countP_cycle_refs (ids : List String) (rs : List Role) (l : List Issue)
    (h : depsRefLoop ids rs = some l) : l.countP isCycleIssue = 0 := by
  rw [List.countP_eq_zero]
  intro i hi hp
  obtain ⟨a, b, rfl⟩ := depsRefLoop_shape ids rs l h i hi
  rw [not_cycle_ref a b] at hp
  cases hp

/-! ### Decomposition of a completed `validate` run -/

/-- The issue list a completed run accumulates, given the dependency rule's
part `d`. -/
def allIssues (c : Config) (d : List Issue) : List Issue :=
  validate_structure c ++ validate_roles c ++ validate_workflow c ++
  validate_communication c ++ d ++ validate_resources c ++ validate_best_practices c

theorem validate_eq_some (c : Config) (d : List Issue)
    (h : validate_dependencies c = some d) :
    validate c = some (!((allIssues c d).any (fun i => i.level == .ERROR)), allIssues c d) := by
  unfold validate runValidate allIssues
  rw [h]

theorem validate_inv (c : Config) (p : Bool) (is : List Issue)
    (h : validate c = some (p, is)) :
    ∃ d, validate_dependencies c = some d ∧ is = allIssues c d ∧
      p = !(is.any (fun i => i.level == .ERROR)) := by
  cases hd : validate_dependencies c with
  | none =>
    unfold validate runValidate at h
    rw [hd] at h
    cases h
  | some d =>
    have h2 := validate_eq_some c d hd
    rw [h] at h2
    injection h2 with h3
    injection h3 with hp his
    exact ⟨d, rfl, his, by rw [his]; exact hp⟩

theorem passed_iff (c : Config) (p : Bool) (is : List Issue)
    (h : validate c = some (p, is)) :
    p = true ↔ ∀ i ∈ is, i.level ≠ .ERROR := by
  obtain ⟨d, -, -, hp⟩ := validate_inv c p is h
  subst hp
  rw [Bool.not_eq_true']
  rw [List.any_eq_false]
  constructor
  · intro hall i hi
    have := hall i hi
    simpa using this
  · intro hall i hi
    simpa using hall i hi

theorem passed_false_of_error (c : Config) (p : Bool) (is : List Issue)
    (h : validate c = some (p, is)) (i : Issue) (hi : i ∈ is)
    (hlvl : i.level = .ERROR) : p = false := by
  rw [Bool.eq_false_iff]
  intro hp
  exact (passed_iff c p is h).mp hp i hi hlvl

/-! ### Exactly one cycle issue, exactly when the relation is cyclic -/

theorem cycle_count (c : Config) (p : Bool) (is : List Issue)
    (h : validate c = some (p, is)) :
    is.countP isCycleIssue = (if has_cycle (reportingOf c) then 1 else 0) ∧
      (has_cycle (reportingOf c) = true → circular_issue ∈ is) := by
  obtain ⟨d, hd, his, -⟩ := validate_inv c p is h
  subst his
  unfold allIssues
  have hdep : d.countP isCycleIssue = (if has_cycle (reportingOf c) then 1 else 0) ∧
      (has_cycle (reportingOf c) = true → circular_issue ∈ d) := by
    unfold validate_dependencies at hd
    cases hr : c.roles with
    | none =>
      rw [hr] at hd
      simp only [Option.some_inj] at hd
      subst hd
      have : reportingOf c = [] := by unfold reportingOf; rw [hr]; rfl
      rw [this]
      constructor
      · simp [has_cycle, hcLoop, reporting]
      · intro hcy
        rw [show has_cycle ([] : List (String × String)) = false from rfl] at hcy
        cases hcy
    | some rs =>
      rw [hr] at hd
      change (depsRefLoop (rs.filterMap Role.id) rs).map
        (fun refs => refs ++ if has_cycle (reporting rs) then [circular_issue] else []) =
          some d at hd
      cases hrefs : depsRefLoop (rs.filterMap Role.id) rs with
      | none => rw [hrefs] at hd; cases hd
      | some refs =>
        rw [hrefs] at hd
        simp only [Option.map_some', Option.some_inj] at hd
        have hrep : reportingOf c = reporting rs := by unfold reportingOf; rw [hr]; rfl
        subst hd
        rw [List.countP_append, countP_cycle_refs _ _ _ hrefs, hrep]
        constructor
        · by_cases hcy : has_cycle (reporting rs) = true
          · rw [if_pos hcy, hcy]
            simp [cycle_circular]
          · rw [if_neg hcy, Bool.not_eq_true] at *
            rw [hcy]
            simp
        · intro hcy
          rw [hcy]
          simp
  constructor
  · simp only [List.countP_append, countP_cycle_structure, countP_cycle_roles,
      countP_cycle_workflow, countP_cycle_communication, countP_cycle_resources,
      countP_cycle_best_practices, hdep.1]
    omega
  · intro hcy
    have := hdep.2 hcy
    simp only [List.mem_append]
    tauto

/-! ### Classifying the workflow rule's issues -/

theorem depErr_cat (i : Issue) : isDepErrIssue i = true → i.category = "workflow" := by
  unfold isDepErrIssue
  rw [Bool.and_eq_true, decide_eq_true_eq]
  exact fun h => h.1

theorem durWarn_cat (i : Issue) : isDurWarnIssue i = true → i.category = "workflow" := by
  unfold isDurWarnIssue
  rw [Bool.and_eq_true, decide_eq_true_eq]
  exact fun h => h.1

theorem dupRole_cat (i : Issue) : isDupRoleIssue i = true → i.category = "roles" := by
  unfold isDupRoleIssue
  rw [Bool.and_eq_true, decide_eq_true_eq]
  exact fun h => h.1

theorem countP_zero_of_cat {l : List Issue} {q : Issue → Bool} {cat : String}
    (hq : ∀ i, q i = true → i.category = cat) (hl : ∀ i ∈ l, i.category ≠ cat) :
    l.countP q = 0 :=
  List.countP_eq_zero.mpr fun i hi hqi => hl i hi (hq i hqi)

theorem depErr_missing_name (i : Nat) : isDepErrIssue (missing_name_issue i) = false := by
  have hmsg : listPre "Phase '".data
      ("Phase at index " ++ toString i ++ " missing 'name'").data = false := by
    simp only [strdata_append, List.append_assoc]
    exact listPre_mismatch' "Phase '" "Phase at index " _ (by decide) (by decide)
  unfold isDepErrIssue
  rw [show (missing_name_issue i).message =
        "Phase at index " ++ toString i ++ " missing 'name'" from rfl, hmsg, Bool.and_false]

theorem depErr_dup_phase (nm : String) (i : Nat) :
    isDepErrIssue (dup_phase_issue nm i) = false := by
  have hmsg : listPre "Phase '".data ("Duplicate phase name: " ++ nm).data = false := by
    simp only [strdata_append, List.append_assoc]
    exact listPre_mismatch' "Phase '" "Duplicate phase name: " _ (by decide) (by decide)
  unfold isDepErrIssue
  rw [show (dup_phase_issue nm i).message = "Duplicate phase name: " ++ nm from rfl,
      hmsg, Bool.and_false]

theorem depErr_dep (nm d : String) (i : Nat) : isDepErrIssue (dep_issue nm d i) = true := by
  have hmsg : listPre "Phase '".data
      ("Phase '" ++ nm ++ "' depends on undefined phase '" ++ d ++ "'").data = true := by
    simp only [strdata_append, List.append_assoc]
    exact listPre_self_append _ _
  unfold isDepErrIssue
  rw [show (dep_issue nm d i).message =
        "Phase '" ++ nm ++ "' depends on undefined phase '" ++ d ++ "'" from rfl,
      show (dep_issue nm d i).category = "workflow" from rfl, hmsg, Bool.and_true]
  decide

theorem depErr_dur_warn (t : Int) : isDepErrIssue (dur_warn_issue t) = false := by
  have hmsg : listPre "Phase '".data
      ("Phase durations sum to " ++ toString t ++ "%, not 100%").data = false := by
    simp only [strdata_append, List.append_assoc]
    exact listPre_mismatch' "Phase '" "Phase durations sum to " _ (by decide) (by decide)
  unfold isDepErrIssue
  rw [show (dur_warn_issue t).message =
        "Phase durations sum to " ++ toString t ++ "%, not 100%" from rfl, hmsg, Bool.and_false]

theorem durWarn_missing_name (i : Nat) : isDurWarnIssue (missing_name_issue i) = false := by
  have hmsg : listPre "Phase durations sum to ".data
      ("Phase at index " ++ toString i ++ " missing 'name'").data = false := by
    simp only [strdata_append, List.append_assoc]
    exact listPre_mismatch' "Phase durations sum to " "Phase at index " _
      (by decide) (by decide)
  unfold isDurWarnIssue
  rw [show (missing_name_issue i).message =
        "Phase at index " ++ toString i ++ " missing 'name'" from rfl, hmsg, Bool.and_false]

theorem durWarn_dup_phase (nm : String) (i : Nat) :
    isDurWarnIssue (dup_phase_issue nm i) = false := by
  have hmsg : listPre "Phase durations sum to ".data
      ("Duplicate phase name: " ++ nm).data = false := by
    simp only [strdata_append, List.append_assoc]
    exact listPre_mismatch' "Phase durations sum to " "Duplicate phase name: " _
      (by decide) (by decide)
  unfold isDurWarnIssue
  rw [show (dup_phase_issue nm i).message = "Duplicate phase name: " ++ nm from rfl,
      hmsg, Bool.and_false]

theorem durWarn_dep (nm d : String) (i : Nat) : isDurWarnIssue (dep_issue nm d i) = false := by
  have hmsg : listPre "Phase durations sum to ".data
      ("Phase '" ++ nm ++ "' depends on undefined phase '" ++ d ++ "'").data = false := by
    simp only [strdata_append, List.append_assoc]
    exact listPre_mismatch' "Phase durations sum to " "Phase '" _ (by decide) (by decide)
  unfold isDurWarnIssue
  rw [show (dep_issue nm d i).message =
        "Phase '" ++ nm ++ "' depends on undefined phase '" ++ d ++ "'" from rfl,
      hmsg, Bool.and_false]

theorem durWarn_dur_warn (t : Int) : isDurWarnIssue (dur_warn_issue t) = true := by
  have hmsg : listPre "Phase durations sum to ".data
      ("Phase durations sum to " ++ toString t ++ "%, not 100%").data = true := by
    simp only [strdata_append, List.append_assoc]
    exact listPre_self_append _ _
  unfold isDurWarnIssue
  rw [show (dur_warn_issue t).message =
        "Phase durations sum to " ++ toString t ++ "%, not 100%" from rfl,
      show (dur_warn_issue t).category = "workflow" from rfl, hmsg, Bool.and_true]
  decide

/-! ### The workflow loop: dependency-error count and duration total -/

theorem nameCheck_snd (i : Nat) (names : List String) (p : Phase) :
    (nameCheck i names p).2 = addNm names p.name := by
  unfold nameCheck addNm
  cases p.name <;> rfl

theorem nameCheck_depErr (i : Nat) (names : List String) (p : Phase) :
    (nameCheck i names p).1.countP isDepErrIssue = 0 := by
  unfold nameCheck
  cases p.name with
  | none => simp [depErr_missing_name]
  | some nm =>
    by_cases h : nm ∈ names
    · simp [h, depErr_dup_phase]
    · simp [h]

theorem nameCheck_durWarn (i : Nat) (names : List String) (p : Phase) :
    (nameCheck i names p).1.countP isDurWarnIssue = 0 := by
  unfold nameCheck
  cases p.name with
  | none => simp [durWarn_missing_name]
  | some nm =>
    by_cases h : nm ∈ names
    · simp [h, durWarn_dup_phase]
    · simp [h]

theorem depCheck_eq (i : Nat) (names2 : List String) (p : Phase) :
    depCheck i names2 p =
      ((depsOf p).filter (fun d => decide (d ∉ names2))).map
        (fun d => dep_issue (p.name.getD "None") d i) := by
  unfold depCheck depsOf
  cases p.dependencies <;> rfl

theorem depCheck_depErr (i : Nat) (names2 : List String) (p : Phase) :
    (depCheck i names2 p).countP isDepErrIssue =
      (depsOf p).countP (fun d => decide (d ∉ names2)) := by
  rw [depCheck_eq, List.countP_map]
  have heq : (isDepErrIssue ∘ fun d => dep_issue (p.name.getD "None") d i) =
      fun _ => true := by
    funext d
    exact depErr_dep _ d i
  rw [heq, List.countP_true, List.countP_eq_length_filter]

theorem depCheck_durWarn (i : Nat) (names2 : List String) (p : Phase) :
    (depCheck i names2 p).countP isDurWarnIssue = 0 := by
  rw [depCheck_eq, List.countP_map]
  have heq : (isDurWarnIssue ∘ fun d => dep_issue (p.name.getD "None") d i) =
      fun _ => false := by
    funext d
    exact durWarn_dep _ d i
  rw [heq, List.countP_false]
  rfl

theorem phaseStep_fst (i : Nat) (names : List String) (total : Int) (p : Phase) :
    (phaseStep i names total p).1 =
      (nameCheck i names p).1 ++ depCheck i (nameCheck i names p).2 p := rfl

theorem phaseStep_snd1 (i : Nat) (names : List String) (total : Int) (p : Phase) :
    (phaseStep i names total p).2.1 = (nameCheck i names p).2 := rfl

theorem phaseStep_snd2 (i : Nat) (names : List String) (total : Int) (p : Phase) :
    (phaseStep i names total p).2.2 = total + durContr p := rfl

theorem wfLoop_cons (i : Nat) (names : List String) (total : Int) (p : Phase)
    (rest : List Phase) :
    wfLoop i names total (p :: rest) =
      ((phaseStep i names total p).1 ++
        (wfLoop (i + 1) (phaseStep i names total p).2.1
          (phaseStep i names total p).2.2 rest).1,
       (wfLoop (i + 1) (phaseStep i names total p).2.1
          (phaseStep i names total p).2.2 rest).2) := rfl

theorem codeDepErrsFrom_cons (names : List String) (p : Phase) (rest : List Phase) :
    codeDepErrsFrom names (p :: rest) =
      (depsOf p).countP (fun d => decide (d ∉ addNm names p.name)) +
        codeDepErrsFrom (addNm names p.name) rest := rfl

theorem wfLoop_depErr :
    ∀ (ps : List Phase) (i : Nat) (names : List String) (total : Int),
    (wfLoop i names total ps).1.countP isDepErrIssue = codeDepErrsFrom names ps := by
  intro ps
  induction ps with
  | nil => intro i names total; rfl
  | cons p rest ih =>
    intro i names total
    rw [wfLoop_cons, List.countP_append, phaseStep_fst, List.countP_append,
        nameCheck_depErr, depCheck_depErr, nameCheck_snd, phaseStep_snd1, nameCheck_snd,
        ih, codeDepErrsFrom_cons]
    omega

theorem wfLoop_durWarn :
    ∀ (ps : List Phase) (i : Nat) (names : List String) (total : Int),
    (wfLoop i names total ps).1.countP isDurWarnIssue = 0 := by
  intro ps
  induction ps with
  | nil => intro i names total; rfl
  | cons p rest ih =>
    intro i names total
    rw [wfLoop_cons, List.countP_append, phaseStep_fst, List.countP_append,
        nameCheck_durWarn, depCheck_durWarn, ih]

theorem wfLoop_total :
    ∀ (ps : List Phase) (i : Nat) (names : List String) (total : Int),
    (wfLoop i names total ps).2.2 = total + durSum ps := by
  intro ps
  induction ps with
  | nil =>
    intro i names total
    show total = total + durSum []
    simp [durSum]
  | cons p rest ih =>
    intro i names total
    rw [wfLoop_cons]
    show (wfLoop (i + 1) _ _ rest).2.2 = _
    rw [ih, phaseStep_snd2]
    show total + durContr p + durSum rest = total + durSum (p :: rest)
    rw [show durSum (p :: rest) = durContr p + durSum rest from rfl]
    ring

/-! ### Classifying the roles rule's issues -/

theorem dup_missing_id (i : Nat) : isDupRoleIssue (missing_id_issue i) = false := by
  have hmsg : listPre "Duplicate role ID: ".data
      ("Role at index " ++ toString i ++ " missing 'id' field").data = false := by
    simp only [strdata_append, List.append_assoc]
    exact listPre_mismatch' "Duplicate role ID: " "Role at index " _ (by decide) (by decide)
  unfold isDupRoleIssue
  rw [show (missing_id_issue i).message =
        "Role at index " ++ toString i ++ " missing 'id' field" from rfl, hmsg,
      Bool.and_false]

theorem dup_dup_role (rid : String) (i : Nat) :
    isDupRoleIssue (dup_role_issue rid i) = true := by
  have hmsg : listPre "Duplicate role ID: ".data ("Duplicate role ID: " ++ rid).data = true := by
    simp only [strdata_append, List.append_assoc]
    exact listPre_self_append _ _
  unfold isDupRoleIssue
  rw [show (dup_role_issue rid i).message = "Duplicate role ID: " ++ rid from rfl,
      show (dup_role_issue rid i).category = "roles" from rfl, hmsg, Bool.and_true]
  decide

theorem dup_invalid_model (m who : String) (i : Nat) :
    isDupRoleIssue (invalid_model_issue m who i) = false := by
  have hmsg : listPre "Duplicate role ID: ".data
      ("Invalid model '" ++ m ++ "' for role " ++ who).data = false := by
    simp only [strdata_append, List.append_assoc]
    exact listPre_mismatch' "Duplicate role ID: " "Invalid model '" _ (by decide) (by decide)
  unfold isDupRoleIssue
  rw [show (invalid_model_issue m who i).message =
        "Invalid model '" ++ m ++ "' for role " ++ who from rfl, hmsg, Bool.and_false]

theorem dup_opt_model (rid m sug tpe : String) (i : Nat) :
    isDupRoleIssue (opt_model_issue rid m sug tpe i) = false := by
  unfold isDupRoleIssue
  rw [show (opt_model_issue rid m sug tpe i).category = "optimization" from rfl]
  rw [show (decide (("optimization" : String) = "roles")) = false from by decide,
      Bool.false_and]

theorem dup_resp (rid : String) (i : Nat) : isDupRoleIssue (resp_issue rid i) = false := by
  have hmsg : listPre "Duplicate role ID: ".data
      ("Role '" ++ rid ++ "' has no defined responsibilities").data = false := by
    simp only [strdata_append, List.append_assoc]
    exact listPre_mismatch' "Duplicate role ID: " "Role '" _ (by decide) (by decide)
  unfold isDupRoleIssue
  rw [show (resp_issue rid i).message =
        "Role '" ++ rid ++ "' has no defined responsibilities" from rfl, hmsg,
      Bool.and_false]

theorem dup_large (n : Nat) : isDupRoleIssue (large_team_issue n) = false := by
  have hmsg : listPre "Duplicate role ID: ".data
      ("Large team size (" ++ toString n ++ ") may cause coordination overhead").data =
        false := by
    simp only [strdata_append, List.append_assoc]
    exact listPre_mismatch' "Duplicate role ID: " "Large team size (" _ (by decide) (by decide)
  unfold isDupRoleIssue
  rw [show (large_team_issue n).message =
        "Large team size (" ++ toString n ++ ") may cause coordination overhead" from rfl,
      hmsg, Bool.and_false]

theorem dup_small (n : Nat) : isDupRoleIssue (small_team_issue n) = false := by
  have hmsg : listPre "Duplicate role ID: ".data
      ("Small team size (" ++ toString n ++ ") may limit parallelization").data = false := by
    simp only [strdata_append, List.append_assoc]
    exact listPre_mismatch' "Duplicate role ID: " "Small team size (" _ (by decide) (by decide)
  unfold isDupRoleIssue
  rw [show (small_team_issue n).message =
        "Small team size (" ++ toString n ++ ") may limit parallelization" from rfl,
      hmsg, Bool.and_false]

theorem opt_missing_id (i : Nat) : isOptInfoIssue (missing_id_issue i) = false := by
  unfold isOptInfoIssue
  rw [decide_eq_false_iff_not]
  rintro ⟨hl, -⟩
  simp [missing_id_issue] at hl

theorem opt_dup_role (rid : String) (i : Nat) :
    isOptInfoIssue (dup_role_issue rid i) = false := by
  unfold isOptInfoIssue
  rw [decide_eq_false_iff_not]
  rintro ⟨hl, -⟩
  simp [dup_role_issue] at hl

theorem opt_invalid_model (m who : String) (i : Nat) :
    isOptInfoIssue (invalid_model_issue m who i) = false := by
  unfold isOptInfoIssue
  rw [decide_eq_false_iff_not]
  rintro ⟨hl, -⟩
  simp [invalid_model_issue] at hl

theorem opt_opt_model (rid m sug tpe : String) (i : Nat) :
    isOptInfoIssue (opt_model_issue rid m sug tpe i) = true := by
  unfold isOptInfoIssue
  rw [decide_eq_true_eq]
  exact ⟨rfl, rfl⟩

theorem opt_resp (rid : String) (i : Nat) : isOptInfoIssue (resp_issue rid i) = false := by
  unfold isOptInfoIssue
  rw [decide_eq_false_iff_not]
  rintro ⟨hl, -⟩
  simp [resp_issue] at hl

/-! ### The roles loop -/

/-- The id set after processing one role (only roles with an id extend it). -/
def idsAfter (ids : List String) (r : Role) : List String :=
  match r.id with
  | none => ids
  | some rid => setAdd ids rid

/-- The id set after processing a list of roles. -/
def idsAfterList (ids : List String) (rs : List Role) : List String :=
  rs.foldl idsAfter ids

/-- The number of duplicate-id hits the roles loop makes from a given id set. -/
def dupCountFrom (ids : List String) : List Role → Nat
  | [] => 0
  | r :: rs =>
    (match r.id with
     | some rid => if rid ∈ ids then 1 else 0
     | none => 0) +
    dupCountFrom (idsAfter ids r) rs

theorem idCheck_snd (i : Nat) (ids : List String) (r : Role) :
    (idCheck i ids r).2 = idsAfter ids r := by
  unfold idCheck idsAfter
  cases r.id <;> rfl

theorem idCheck_dup (i : Nat) (ids : List String) (r : Role) :
    (idCheck i ids r).1.countP isDupRoleIssue =
      (match r.id with
       | some rid => if rid ∈ ids then 1 else 0
       | none => 0) := by
  unfold idCheck
  cases r.id with
  | none => simp [dup_missing_id]
  | some rid =>
    by_cases hm : rid ∈ ids
    · simp [hm, dup_dup_role]
    · simp [hm]

theorem modelCheck_dup (i : Nat) (r : Role) :
    (modelCheck i r).countP isDupRoleIssue = 0 := by
  unfold modelCheck
  cases r.model with
  | none => rfl
  | some m =>
    rw [List.countP_append]
    have h1 : (if m ∉ ["opus", "sonnet", "haiku"] then [invalid_model_issue m (ridOr r i) i]
        else []).countP isDupRoleIssue = 0 := by
      split <;> simp [dup_invalid_model]
    have h2 : (if m ≠ suggest_model (r.type.getD "") then
        [opt_model_issue (ridStr r) m (suggest_model (r.type.getD "")) (r.type.getD "") i]
        else []).countP isDupRoleIssue = 0 := by
      split <;> simp [dup_opt_model]
    omega

theorem respCheck_dup (i : Nat) (r : Role) :
    (respCheck i r).countP isDupRoleIssue = 0 := by
  unfold respCheck
  cases r.responsibilities with
  | none => simp [dup_resp]
  | some rr =>
    split <;> simp [dup_resp]

theorem roleStep_snd (i : Nat) (ids : List String) (r : Role) :
    (roleStep i ids r).2 = idsAfter ids r := by
  unfold roleStep
  exact idCheck_snd i ids r

theorem roleStep_dup (i : Nat) (ids : List String) (r : Role) :
    (roleStep i ids r).1.countP isDupRoleIssue =
      (match r.id with
       | some rid => if rid ∈ ids then 1 else 0
       | none => 0) := by
  unfold roleStep
  rw [List.countP_append, List.countP_append, idCheck_dup, modelCheck_dup, respCheck_dup]
  omega

theorem rolesLoop_cons (i : Nat) (ids : List String) (r : Role) (rs : List Role) :
    rolesLoop i ids (r :: rs) =
      (roleStep i ids r).1 ++ rolesLoop (i + 1) (roleStep i ids r).2 rs := rfl

theorem rolesLoop_dup :
    ∀ (rs : List Role) (i : Nat) (ids : List String),
    (rolesLoop i ids rs).countP isDupRoleIssue = dupCountFrom ids rs := by
  intro rs
  induction rs with
  | nil => intro i ids; rfl
  | cons r rest ih =>
    intro i ids
    rw [rolesLoop_cons, List.countP_append, roleStep_dup, roleStep_snd, ih]
    rfl

theorem rolesLoop_append :
    ∀ (as bs : List Role) (i : Nat) (ids : List String),
    rolesLoop i ids (as ++ bs) =
      rolesLoop i ids as ++ rolesLoop (i + as.length) (idsAfterList ids as) bs := by
  intro as
  induction as with
  | nil =>
    intro bs i ids
    simp [rolesLoop, idsAfterList]
  | cons a rest ih =>
    intro bs i ids
    rw [List.cons_append, rolesLoop_cons, rolesLoop_cons, ih, List.append_assoc]
    have h1 : i + 1 + rest.length = i + (a :: rest).length := by
      simp [List.length_cons]
      omega
    have h2 : idsAfterList (roleStep i ids a).2 rest = idsAfterList ids (a :: rest) := by
      rw [roleStep_snd]
      rfl
    rw [h1, h2]

theorem idsAfterList_mem :
    ∀ (as : List Role) (ids : List String) (y : String),
    y ∈ idsAfterList ids as ↔ y ∈ ids ∨ y ∈ as.filterMap Role.id := by
  intro as
  induction as with
  | nil => intro ids y; simp [idsAfterList]
  | cons a rest ih =>
    intro ids y
    show y ∈ idsAfterList (idsAfter ids a) rest ↔ _
    rw [ih]
    unfold idsAfter
    cases ha : a.id with
    | none => simp [List.filterMap_cons, ha]
    | some rid =>
      rw [setAdd_mem]
      simp [List.filterMap_cons, ha]
      tauto

theorem dupCountFrom_zero :
    ∀ (as : List Role) (ids : List String),
    (as.filterMap Role.id).Nodup → (∀ y ∈ as.filterMap Role.id, y ∉ ids) →
    dupCountFrom ids as = 0 := by
  intro as
  induction as with
  | nil => intro ids _ _; rfl
  | cons a rest ih =>
    intro ids hnd hdisj
    unfold dupCountFrom
    cases ha : a.id with
    | none =>
      have hia : idsAfter ids a = ids := by unfold idsAfter; rw [ha]
      have hfm : (a :: rest).filterMap Role.id = rest.filterMap Role.id := by
        simp [List.filterMap_cons, ha]
      rw [hfm] at hnd hdisj
      show 0 + dupCountFrom (idsAfter ids a) rest = 0
      rw [hia, ih _ hnd hdisj]
    | some rid =>
      have hia : idsAfter ids a = setAdd ids rid := by unfold idsAfter; rw [ha]
      have hfm : (a :: rest).filterMap Role.id = rid :: rest.filterMap Role.id := by
        simp [List.filterMap_cons, ha]
      rw [hfm] at hnd hdisj
      have hnd2 := List.nodup_cons.mp hnd
      have hrid : rid ∉ ids := hdisj rid (List.mem_cons_self _ _)
      show (if rid ∈ ids then 1 else 0) + dupCountFrom (idsAfter ids a) rest = 0
      rw [if_neg hrid, hia, ih (setAdd ids rid) hnd2.2]
      intro y hy
      rw [setAdd_mem]
      rintro (hin | rfl)
      · exact hdisj y (List.mem_cons_of_mem _ hy) hin
      · exact hnd2.1 hy

theorem dupCountFrom_append :
    ∀ (as bs : List Role) (ids : List String),
    dupCountFrom ids (as ++ bs) =
      dupCountFrom ids as + dupCountFrom (idsAfterList ids as) bs := by
  intro as
  induction as with
  | nil =>
    intro bs ids
    show dupCountFrom ids bs = 0 + dupCountFrom (idsAfterList ids []) bs
    rw [show idsAfterList ids [] = ids from rfl]
    omega
  | cons a rest ih =>
    intro bs ids
    show (match a.id with
          | some rid => if rid ∈ ids then 1 else 0
          | none => 0) + dupCountFrom (idsAfter ids a) (rest ++ bs) = _
    rw [ih]
    show _ = (match a.id with
              | some rid => if rid ∈ ids then 1 else 0
              | none => 0) + dupCountFrom (idsAfter ids a) rest +
            dupCountFrom (idsAfterList ids (a :: rest)) bs
    rw [show idsAfterList ids (a :: rest) = idsAfterList (idsAfter ids a) rest from rfl]
    omega

theorem deps_cat (c : Config) (d : List Issue) (h : validate_dependencies c = some d) :
    ∀ i ∈ d, i.category = "dependencies" := by
  unfold validate_dependencies at h
  cases hr : c.roles with
  | none =>
    rw [hr] at h
    injection h with h
    subst h
    intro i hi
    cases hi
  | some rs =>
    rw [hr] at h
    change (depsRefLoop (rs.filterMap Role.id) rs).map
      (fun refs => refs ++ if has_cycle (reporting rs) then [circular_issue] else []) =
        some d at h
    cases hrefs : depsRefLoop (rs.filterMap Role.id) rs with
    | none => rw [hrefs] at h; cases h
    | some refs =>
      rw [hrefs] at h
      simp at h
      subst h
      intro i hi
      rcases List.mem_append.mp hi with hm | hm
      · obtain ⟨a, b, rfl⟩ := depsRefLoop_shape _ rs refs hrefs i hm
        rfl
      · split at hm
        · rw [List.mem_singleton.mp hm]
          rfl
        · cases hm

/-- Transfer: a predicate that only holds for workflow-category issues counts
the same over a full run's issues as over the workflow rule alone. -/
theorem countP_val_workflow (c : Config) (p : Bool) (is : List Issue)
    (h : validate c = some (p, is)) (q : Issue → Bool)
    (hq : ∀ i, q i = true → i.category = "workflow") :
    is.countP q = (validate_workflow c).countP q := by
  obtain ⟨d, hd, his, -⟩ := validate_inv c p is h
  subst his
  unfold allIssues
  repeat rw [List.countP_append]
  have hS : (validate_structure c).countP q = 0 :=
    countP_zero_of_cat hq (fun i hi => by rw [structure_cat c i hi]; decide)
  have hR : (validate_roles c).countP q = 0 :=
    countP_zero_of_cat hq
      (fun i hi => by rcases roles_cat c i hi with hc | hc <;> rw [hc] <;> decide)
  have hC : (validate_communication c).countP q = 0 :=
    countP_zero_of_cat hq (fun i hi => by rw [communication_cat c i hi]; decide)
  have hD : d.countP q = 0 :=
    countP_zero_of_cat hq (fun i hi => by rw [deps_cat c d hd i hi]; decide)
  have hRes : (validate_resources c).countP q = 0 :=
    countP_zero_of_cat hq (fun i hi => by rw [resources_cat c i hi]; decide)
  have hBP : (validate_best_practices c).countP q = 0 :=
    countP_zero_of_cat hq
      (fun i hi => by rcases best_practices_cat c i hi with hc | hc <;> rw [hc] <;> decide)
  omega

/-- Transfer: a predicate that only holds for roles-category issues counts the
same over a full run's issues as over the roles rule alone. -/
theorem countP_val_roles (c : Config) (p : Bool) (is : List Issue)
    (h : validate c = some (p, is)) (q : Issue → Bool)
    (hq : ∀ i, q i = true → i.category = "roles") :
    is.countP q = (validate_roles c).countP q := by
  obtain ⟨d, hd, his, -⟩ := validate_inv c p is h
  subst his
  unfold allIssues
  repeat rw [List.countP_append]
  have hS : (validate_structure c).countP q = 0 :=
    countP_zero_of_cat hq (fun i hi => by rw [structure_cat c i hi]; decide)
  have hW : (validate_workflow c).countP q = 0 :=
    countP_zero_of_cat hq (fun i hi => by rw [workflow_cat c i hi]; decide)
  have hC : (validate_communication c).countP q = 0 :=
    countP_zero_of_cat hq (fun i hi => by rw [communication_cat c i hi]; decide)
  have hD : d.countP q = 0 :=
    countP_zero_of_cat hq (fun i hi => by rw [deps_cat c d hd i hi]; decide)
  have hRes : (validate_resources c).countP q = 0 :=
    countP_zero_of_cat hq (fun i hi => by rw [resources_cat c i hi]; decide)
  have hBP : (validate_best_practices c).countP q = 0 :=
    countP_zero_of_cat hq
      (fun i hi => by rcases best_practices_cat c i hi with hc | hc <;> rw [hc] <;> decide)
  omega

/-! ### Concrete configurations used as inputs -/

/-- A well-formed configuration: three roles, a two-node reporting cycle. -/
def c2w : Config :=
  ⟨some "T",
   some [⟨some "a", none, none, some ["x"], some "b"⟩,
         ⟨some "b", none, none, some ["x"], some "a"⟩,
         ⟨some "c", none, none, some ["x"], none⟩],
   some ⟨some []⟩, some ⟨none⟩, none, true, true, true⟩

/-- A configuration on which `validate` raises: the only role has
`reports_to` but no `id`, and the supervisor is undefined. -/
def cCrashA : Config :=
  ⟨some "T", some [⟨none, none, none, some ["x"], some "boss"⟩],
   some ⟨some []⟩, some ⟨none⟩, none, true, true, true⟩

/-- A second raising configuration: two well-formed roles and one id-less
role with a dangling `reports_to`. -/
def cCrashB : Config :=
  ⟨some "T",
   some [⟨some "a", none, none, some ["x"], none⟩,
         ⟨some "b", none, none, some ["x"], none⟩,
         ⟨none, none, none, some ["x"], some "ghost"⟩],
   some ⟨some []⟩, some ⟨none⟩, none, true, true, true⟩

/-- A valid configuration with no findings at all. -/
def cOk : Config :=
  ⟨some "T",
   some [⟨some "a", none, none, some ["x"], none⟩,
         ⟨some "b", none, none, some ["x"], none⟩,
         ⟨some "c", none, none, some ["x"], none⟩],
   some ⟨some []⟩, some ⟨some []⟩, none, true, true, true⟩

/-- Duplicate role ids `a … a` shadow the first `reports_to` in the
`reporting` dict comprehension: the self-loop `a → a` is overwritten. -/
def cShadow : Config :=
  ⟨some "T",
   some [⟨some "a", none, none, some ["x"], some "a"⟩,
         ⟨some "a", none, none, some ["x"], some "b"⟩,
         ⟨some "b", none, none, some ["x"], none⟩],
   some ⟨some []⟩, some ⟨none⟩, none, true, true, true⟩

/-- One role reporting to itself. -/
def cSelfLoop : Config :=
  ⟨some "T",
   some [⟨some "a", none, none, some ["x"], some "a"⟩,
         ⟨some "b", none, none, some ["x"], none⟩,
         ⟨some "c", none, none, some ["x"], none⟩],
   some ⟨some []⟩, some ⟨none⟩, none, true, true, true⟩

/-- Two node-disjoint reporting cycles `a ↔ b` and `c ↔ d`. -/
def c10w : Config :=
  ⟨some "T",
   some [⟨some "a", none, none, some ["x"], some "b"⟩,
         ⟨some "b", none, none, some ["x"], some "a"⟩,
         ⟨some "c", none, none, some ["x"], some "d"⟩,
         ⟨some "d", none, none, some ["x"], some "c"⟩],
   some ⟨some []⟩, some ⟨none⟩, none, true, true, true⟩

/-! ### Claim C1 -/

/-- Claim C1 (amended: on every document on which `validate` completes
without raising): `validate` returns `(passed, issues)` where `issues` is
the concatenation, in the fixed declared order (structure, roles, workflow,
communication, dependencies, resources, best-practices), of the issues
emitted by each rule run once, and `passed` is true iff no issue has level
ERROR. -/
theorem claim_engine_shape (c : Config) (p : Bool) (is : List Issue)
    (h : validate c = some (p, is)) :
    (∃ d, validate_dependencies c = some d ∧
       is = validate_structure c ++ validate_roles c ++ validate_workflow c ++
         validate_communication c ++ d ++ validate_resources c ++
         validate_best_practices c) ∧
    (p = true ↔ ∀ i ∈ is, i.level ≠ .ERROR) := by
  obtain ⟨d, hd, his, -⟩ := validate_inv c p is h
  exact ⟨⟨d, hd, his⟩, passed_iff c p is h⟩

/-- Claim C1 does not hold as universally stated: on `cCrashA` the
dependency rule raises `KeyError` and `validate` returns no pair at all. -/
theorem claim_engine_shape_cex : validate cCrashA = none := by decide

/-- Witness for C1's amended theorem on the concrete `cOk`. -/
theorem claim_engine_shape_w :
    ∃ p is, validate cOk = some (p, is) ∧ (p = true ↔ ∀ i ∈ is, i.level ≠ .ERROR) := by
  cases hv : validate cOk with
  | none => exact absurd hv (by decide)
  | some r =>
    obtain ⟨p, is⟩ := r
    exact ⟨p, is, rfl, (claim_engine_shape cOk p is hv).2⟩

/-! ### Claim C2 -/

/-- Claim C2: when the reporting relation has a cycle of length at least two
(a node on a cycle that is not a self-loop), a completed run emits exactly
one circular-dependency ERROR; when the relation is acyclic, it emits
none, regardless of chain length. -/
theorem claim_cycle_detection (c : Config) (p : Bool) (is : List Issue)
    (h : validate c = some (p, is)) :
    ((∃ x, OnCycle (reportingOf c) x ∧ lookupG (reportingOf c) x ≠ some x) →
       is.countP isCycleIssue = 1) ∧
    ((¬ ∃ x, OnCycle (reportingOf c) x) → is.countP isCycleIssue = 0) := by
  obtain ⟨hcnt, -⟩ := cycle_count c p is h
  constructor
  · rintro ⟨x, hx, -⟩
    rw [hcnt, if_pos ((has_cycle_iff _).mpr ⟨x, hx⟩)]
  · intro hno
    have hf : has_cycle (reportingOf c) = false := by
      rw [← Bool.not_eq_true]
      intro hc
      exact hno ((has_cycle_iff _).mp hc)
    rw [hcnt, hf]
    rfl

/-- Witness for C2 on `c2w`, whose reporting relation is the cycle
`a → b → a`. -/
theorem claim_cycle_detection_w :
    ∃ p is, validate c2w = some (p, is) ∧ is.countP isCycleIssue = 1 := by
  cases hv : validate c2w with
  | none => exact absurd hv (by decide)
  | some r =>
    obtain ⟨p, is⟩ := r
    exact ⟨p, is, rfl, (claim_cycle_detection c2w p is hv).1
      ⟨"a", ⟨2, by decide, by decide⟩, by decide⟩⟩

/-! ### Claim C5 -/

/-- Claim C5 is right and the code is wrong: `validate` does not complete on
every partial document.  On `cCrashB` (a role with `reports_to` but no
`id`, supervisor unresolved) the message f-string reads `role['id']` and
raises `KeyError`. -/
theorem claim_no_crash_bug : validate cCrashB = none := by decide

/-! ### Claim C8 -/

/-- Claim C8: validation is deterministic and idempotent.  A run does not
depend on the issue list accumulated on the validator (the source resets it
first), and re-running on the same document — in particular starting from
the first run's own issue list — returns the identical verdict and issue
sequence. -/
theorem claim_idempotent (c : Config) (prev : List Issue) :
    runValidate prev c = validate c ∧
    (∀ p is, validate c = some (p, is) → runValidate is c = some (p, is)) :=
  ⟨rfl, fun _ _ h => h⟩

/-! ### Claim C9 -/

/-- Claim C9 (amended: over the built reporting relation): whenever the
reporting dict maps an id to itself, a completed run emits the circular
ERROR (the detector flags cycles of length one) and `passed` is false. -/
theorem claim_self_loop (c : Config) (p : Bool) (is : List Issue) (x : String)
    (h : validate c = some (p, is)) (hx : lookupG (reportingOf c) x = some x) :
    is.countP isCycleIssue = 1 ∧ p = false := by
  obtain ⟨hcnt, hmem⟩ := cycle_count c p is h
  have hcy : has_cycle (reportingOf c) = true :=
    (has_cycle_iff _).mpr ⟨x, 1, le_refl 1, by simp [iterG, hx]⟩
  refine ⟨by rw [hcnt, if_pos hcy], ?_⟩
  exact passed_false_of_error c p is h circular_issue (hmem hcy) rfl

/-- Claim C9 as stated is false: in `cShadow` the first role's
`reports_to` equals its own id, but a later duplicate id overwrites the
edge in the dict comprehension, so no circular ERROR is emitted. -/
theorem claim_self_loop_cex :
    (∃ r ∈ cShadow.roles.getD [], r.id = some "a" ∧ r.reports_to = some "a") ∧
    (validate cShadow).map (fun r => r.2.countP isCycleIssue) = some 0 := by
  constructor
  · exact ⟨⟨some "a", none, none, some ["x"], some "a"⟩, by decide, rfl, rfl⟩
  · decide

/-- Witness for C9's amended theorem on `cSelfLoop`. -/
theorem claim_self_loop_w :
    ∃ p is, validate cSelfLoop = some (p, is) ∧
      is.countP isCycleIssue = 1 ∧ p = false := by
  cases hv : validate cSelfLoop with
  | none => exact absurd hv (by decide)
  | some r =>
    obtain ⟨p, is⟩ := r
    obtain ⟨h1, h2⟩ := claim_self_loop cSelfLoop p is "a" hv (by decide)
    exact ⟨p, is, rfl, h1, h2⟩

/-! ### Claim C10 -/

/-- Claim C10: a configuration whose reporting relation has two node-disjoint
cycles still gets exactly one circular ERROR in the whole run — the check is
a single boolean over the entire relation. -/
theorem claim_disjoint_cycles (c : Config) (p : Bool) (is : List Issue)
    (x y : String) (h : validate c = some (p, is))
    (hx : OnCycle (reportingOf c) x) (hy : OnCycle (reportingOf c) y)
    (hdisj : ∀ k, iterG (reportingOf c) k x ≠ some y) :
    is.countP isCycleIssue = 1 := by
  obtain ⟨hcnt, -⟩ := cycle_count c p is h
  rw [hcnt, if_pos ((has_cycle_iff _).mpr ⟨x, hx⟩)]

/-- Witness for C10 on `c10w` (`a ↔ b` and `c ↔ d`). -/
theorem claim_disjoint_cycles_w :
    ∃ p is, validate c10w = some (p, is) ∧ is.countP isCycleIssue = 1 := by
  have horb : ∀ k, iterG (reportingOf c10w) k "a" = some "a" ∨
      iterG (reportingOf c10w) k "a" = some "b" := by
    intro k
    induction k with
    | zero => left; rfl
    | succ n ihn =>
      rcases ihn with hh | hh
      · right
        show (iterG (reportingOf c10w) n "a").bind (lookupG (reportingOf c10w)) = _
        rw [hh]
        decide
      · left
        show (iterG (reportingOf c10w) n "a").bind (lookupG (reportingOf c10w)) = _
        rw [hh]
        decide
  cases hv : validate c10w with
  | none => exact absurd hv (by decide)
  | some r =>
    obtain ⟨p, is⟩ := r
    refine ⟨p, is, rfl, claim_disjoint_cycles c10w p is "a" "c" hv
      ⟨2, by decide, by decide⟩ ⟨2, by decide, by decide⟩ ?_⟩
    intro k hk
    rcases horb k with hh | hh <;> rw [hh] at hk <;> exact absurd hk (by decide)

/-! ### Claims C3 and C6: the workflow rule over a completed run -/

theorem validate_workflow_eq (c : Config) (wf : Workflow) (ps : List Phase)
    (hw : c.workflow = some wf) (hps : wf.phases = some ps) :
    validate_workflow c =
      (wfLoop 0 [] 0 ps).1 ++
        (if 0 < (wfLoop 0 [] 0 ps).2.2 ∧ (wfLoop 0 [] 0 ps).2.2 ≠ 100 then
           [dur_warn_issue (wfLoop 0 [] 0 ps).2.2]
         else []) := by
  unfold validate_workflow
  rw [hw]
  show (match wf.phases with
        | none => [no_phases_issue]
        | some ps =>
          (wfLoop 0 [] 0 ps).1 ++
            (if 0 < (wfLoop 0 [] 0 ps).2.2 ∧ (wfLoop 0 [] 0 ps).2.2 ≠ 100 then
               [dur_warn_issue (wfLoop 0 [] 0 ps).2.2]
             else [])) = _
  rw [hps]

/-- Three quiet roles reused by the workflow-claim configurations. -/
def roles3 : List Role :=
  [⟨some "a", none, none, some ["x"], none⟩,
   ⟨some "b", none, none, some ["x"], none⟩,
   ⟨some "c", none, none, some ["x"], none⟩]

/-- The self-dependent phase: `a` lists itself as a dependency. -/
def selfPhase : Phase := ⟨some "a", some ["a"], none⟩

/-- A configuration whose only phase depends on itself. -/
def cSelfDep : Config :=
  ⟨some "T", some roles3, some ⟨some [selfPhase]⟩, some ⟨none⟩, none, true, true, true⟩

/-- A configuration with a genuine forward reference: phase `a` depends on
`b`, declared only later. -/
def cFwd : Config :=
  ⟨some "T", some roles3,
   some ⟨some [⟨some "a", some ["b"], none⟩, ⟨some "b", none, none⟩]⟩,
   some ⟨none⟩, none, true, true, true⟩

/-- Claim C3 (amended): a completed run emits exactly one dependency ERROR
for each dependency entry whose name is not declared by the current or an
earlier phase — the phase's own name is registered before its dependencies
are checked, so a self-dependency is not flagged; a name declared only
later still errors. -/
theorem claim_forward_dependency (c : Config) (p : Bool) (is : List Issue)
    (wf : Workflow) (ps : List Phase) (h : validate c = some (p, is))
    (hw : c.workflow = some wf) (hps : wf.phases = some ps) :
    is.countP isDepErrIssue = codeDepErrsFrom [] ps := by
  rw [countP_val_workflow c p is h isDepErrIssue depErr_cat,
      validate_workflow_eq c wf ps hw hps, List.countP_append, wfLoop_depErr]
  have hz : (if 0 < (wfLoop 0 [] 0 ps).2.2 ∧ (wfLoop 0 [] 0 ps).2.2 ≠ 100 then
      [dur_warn_issue (wfLoop 0 [] 0 ps).2.2]
    else []).countP isDepErrIssue = 0 := by
    split
    · simp [depErr_dur_warn]
    · rfl
  rw [hz]
  omega

/-- Claim C3 as stated is false at `cSelfDep`: the phase's own name is not
declared earlier, so the claim demands an ERROR for the self-dependency
(`claimDepErrsFrom` counts one), but the completed run emits none. -/
theorem claim_forward_dependency_cex :
    claimDepErrsFrom [] [selfPhase] = 1 ∧
    (validate cSelfDep).map (fun r => r.2.countP isDepErrIssue) = some 0 := by
  constructor
  · decide
  · decide

/-- Witness for C3's amended theorem on `cFwd` (one forward reference, one
error). -/
theorem claim_forward_dependency_w :
    ∃ p is, validate cFwd = some (p, is) ∧ is.countP isDepErrIssue = 1 := by
  cases hv : validate cFwd with
  | none => exact absurd hv (by decide)
  | some r =>
    obtain ⟨p, is⟩ := r
    have h := claim_forward_dependency cFwd p is ⟨some [⟨some "a", some ["b"], none⟩,
      ⟨some "b", none, none⟩]⟩ [⟨some "a", some ["b"], none⟩, ⟨some "b", none, none⟩]
      hv rfl rfl
    exact ⟨p, is, rfl, h.trans (by decide)⟩

/-- The phase with a negative parseable percentage. -/
def negPhase : Phase := ⟨some "a", none, some "-40%"⟩

/-- A configuration whose only duration is `-40%`. -/
def cNegDur : Config :=
  ⟨some "T", some roles3, some ⟨some [negPhase]⟩, some ⟨none⟩, none, true, true, true⟩

/-- The spec's duration scenario: two phases of 40% each. -/
def dur80Phases : List Phase :=
  [⟨some "design", none, some "40%"⟩, ⟨some "build", none, some "40%"⟩]

/-- A configuration whose durations sum to 80%. -/
def cDur80 : Config :=
  ⟨some "T", some roles3, some ⟨some dur80Phases⟩, some ⟨none⟩, none, true, true, true⟩

/-- Claim C6 (amended: the total must be positive, not merely nonzero): over
a completed run, the duration WARNING is emitted exactly once iff the sum of
the parseable percentage durations is positive and not 100, and it carries
that sum; unparseable durations are ignored by the sum. -/
theorem claim_duration_warning (c : Config) (p : Bool) (is : List Issue)
    (wf : Workflow) (ps : List Phase) (h : validate c = some (p, is))
    (hw : c.workflow = some wf) (hps : wf.phases = some ps) :
    is.countP isDurWarnIssue =
      (if 0 < durSum ps ∧ durSum ps ≠ 100 then 1 else 0) ∧
    (0 < durSum ps ∧ durSum ps ≠ 100 → dur_warn_issue (durSum ps) ∈ is) := by
  have htot : (wfLoop 0 [] 0 ps).2.2 = durSum ps := by
    rw [wfLoop_total]
    omega
  constructor
  · rw [countP_val_workflow c p is h isDurWarnIssue durWarn_cat,
        validate_workflow_eq c wf ps hw hps, List.countP_append, wfLoop_durWarn, htot]
    by_cases hc : 0 < durSum ps ∧ durSum ps ≠ 100
    · rw [if_pos hc, if_pos hc]
      simp [durWarn_dur_warn]
    · rw [if_neg hc, if_neg hc]
      rfl
  · intro hc
    obtain ⟨d, hd, his, -⟩ := validate_inv c p is h
    subst his
    have hmem : dur_warn_issue (durSum ps) ∈ validate_workflow c := by
      rw [validate_workflow_eq c wf ps hw hps, htot, if_pos hc]
      exact List.mem_append_right _ (List.mem_singleton.mpr rfl)
    unfold allIssues
    simp only [List.mem_append]
    tauto

/-- Claim C6 as stated is false at `cNegDur`: the parseable total is `-40`,
nonzero and not 100, so the claim demands the WARNING, but the code suppresses
it because the total is not greater than zero. -/
theorem claim_duration_warning_cex :
    durSum [negPhase] = -40 ∧
    (validate cNegDur).map (fun r => r.2.countP isDurWarnIssue) = some 0 := by
  constructor
  · decide
  · decide

/-- Witness for C6's amended theorem on `cDur80` (total 80, one WARNING). -/
theorem claim_duration_warning_w :
    ∃ p is, validate cDur80 = some (p, is) ∧
      is.countP isDurWarnIssue = 1 ∧ dur_warn_issue 80 ∈ is := by
  cases hv : validate cDur80 with
  | none => exact absurd hv (by decide)
  | some r =>
    obtain ⟨p, is⟩ := r
    obtain ⟨h1, h2⟩ := claim_duration_warning cDur80 p is ⟨some dur80Phases⟩
      dur80Phases hv rfl rfl
    refine ⟨p, is, rfl, h1.trans (by decide), ?_⟩
    have := h2 (by decide)
    rwa [show durSum dur80Phases = 80 from by decide] at this

/-! ### Claim C4: duplicate role ids -/

theorem validate_roles_eq (c : Config) (rs : List Role) (hr : c.roles = some rs)
    (hne : rs ≠ []) :
    validate_roles c = rolesLoop 0 [] rs ++ sizeIssues rs.length := by
  unfold validate_roles
  rw [hr]
  show (if rs = [] then [empty_roles_issue]
        else rolesLoop 0 [] rs ++ sizeIssues rs.length) = _
  rw [if_neg hne]

theorem sizeIssues_dup (n : Nat) : (sizeIssues n).countP isDupRoleIssue = 0 := by
  unfold sizeIssues
  split
  · simp [dup_large]
  · split
    · simp [dup_small]
    · rfl

theorem roleStep_fst (i : Nat) (ids : List String) (r : Role) :
    (roleStep i ids r).1 = (idCheck i ids r).1 ++ modelCheck i r ++ respCheck i r := rfl

theorem idCheck_fst_dup (i : Nat) (ids : List String) (r : Role) (x : String)
    (hid : r.id = some x) (hm : x ∈ ids) :
    (idCheck i ids r).1 = [dup_role_issue x i] := by
  unfold idCheck
  rw [hid]
  show (if x ∈ ids then [dup_role_issue x i] else []) = _
  rw [if_pos hm]

theorem dupCountFrom_cons_some (ids : List String) (r : Role) (rs : List Role)
    (x : String) (hid : r.id = some x) :
    dupCountFrom ids (r :: rs) =
      (if x ∈ ids then 1 else 0) + dupCountFrom (setAdd ids x) rs := by
  have h0 : dupCountFrom ids (r :: rs) =
      (match r.id with
       | some rid => if rid ∈ ids then 1 else 0
       | none => 0) + dupCountFrom (idsAfter ids r) rs := rfl
  rw [h0, hid, show idsAfter ids r = setAdd ids x from by unfold idsAfter; rw [hid]]

/-- Claim C4: a role list with exactly two roles sharing an id (all other
present ids pairwise distinct and different from the shared one) makes a
completed run emit exactly one duplicate-id ERROR, reported at the second
occurrence's index, and `passed` is false. -/
theorem claim_duplicate_id (c : Config) (p : Bool) (is : List Issue)
    (l₁ l₂ l₃ : List Role) (r₁ r₂ : Role) (x : String)
    (h : validate c = some (p, is))
    (hroles : c.roles = some (l₁ ++ (r₁ :: l₂) ++ (r₂ :: l₃)))
    (hid1 : r₁.id = some x) (hid2 : r₂.id = some x)
    (hnodup : ((l₁ ++ l₂ ++ l₃).filterMap Role.id).Nodup)
    (hx : x ∉ (l₁ ++ l₂ ++ l₃).filterMap Role.id) :
    is.countP isDupRoleIssue = 1 ∧
      dup_role_issue x (l₁.length + 1 + l₂.length) ∈ is ∧ p = false := by
  have hfm : (l₁ ++ l₂ ++ l₃).filterMap Role.id =
      l₁.filterMap Role.id ++ (l₂.filterMap Role.id ++ l₃.filterMap Role.id) := by
    simp [List.filterMap_append]
  rw [hfm] at hnodup hx
  rw [List.nodup_append] at hnodup
  obtain ⟨nd1, nd23, dj1⟩ := hnodup
  rw [List.nodup_append] at nd23
  obtain ⟨nd2, nd3, dj23⟩ := nd23
  have hx1 : x ∉ l₁.filterMap Role.id := fun hc => hx (List.mem_append_left _ hc)
  have hx2 : x ∉ l₂.filterMap Role.id := fun hc =>
    hx (List.mem_append_right _ (List.mem_append_left _ hc))
  have hx3 : x ∉ l₃.filterMap Role.id := fun hc =>
    hx (List.mem_append_right _ (List.mem_append_right _ hc))
  have hne : (l₁ ++ (r₁ :: l₂) ++ (r₂ :: l₃)) ≠ [] := by
    intro hEq
    have hlen := congrArg List.length hEq
    simp [List.length_append] at hlen
  have hfA : (l₁ ++ (r₁ :: l₂)).filterMap Role.id =
      l₁.filterMap Role.id ++ (x :: l₂.filterMap Role.id) := by
    simp [List.filterMap_append, List.filterMap_cons, hid1]
  have hI1 : x ∉ idsAfterList [] l₁ := by
    rw [idsAfterList_mem]
    rintro (hc | hc)
    · cases hc
    · exact hx1 hc
  have hin2 : x ∈ idsAfterList [] (l₁ ++ (r₁ :: l₂)) := by
    rw [idsAfterList_mem, hfA]
    exact Or.inr (List.mem_append_right _ (List.mem_cons_self _ _))
  have z1 : dupCountFrom [] l₁ = 0 :=
    dupCountFrom_zero l₁ [] nd1 (by simp)
  have z2 : dupCountFrom (setAdd (idsAfterList [] l₁) x) l₂ = 0 := by
    apply dupCountFrom_zero l₂ _ nd2
    intro y hy
    rw [setAdd_mem]
    rintro (hin | rfl)
    · rw [idsAfterList_mem] at hin
      rcases hin with hc | hc
      · cases hc
      · exact dj1 hc (List.mem_append_left _ hy)
    · exact hx2 hy
  have z3 : dupCountFrom (setAdd (idsAfterList [] (l₁ ++ (r₁ :: l₂))) x) l₃ = 0 := by
    apply dupCountFrom_zero l₃ _ nd3
    intro y hy
    rw [setAdd_mem]
    rintro (hin | rfl)
    · rw [idsAfterList_mem, hfA] at hin
      rcases hin with hc | hc
      · cases hc
      · rcases List.mem_append.mp hc with hc | hc
        · exact dj1 hc (List.mem_append_right _ hy)
        · rcases List.mem_cons.mp hc with rfl | hc
          · exact hx3 hy
          · exact dj23 hc hy
    · exact hx3 hy
  have hcount : dupCountFrom [] (l₁ ++ (r₁ :: l₂) ++ (r₂ :: l₃)) = 1 := by
    rw [dupCountFrom_append, dupCountFrom_append,
        dupCountFrom_cons_some _ _ _ x hid1, dupCountFrom_cons_some _ _ _ x hid2,
        z1, z2, z3, if_neg hI1, if_pos hin2]
  have hidx : 0 + (l₁ ++ (r₁ :: l₂)).length = l₁.length + 1 + l₂.length := by
    simp [List.length_append]
    omega
  have hmemRL : dup_role_issue x (l₁.length + 1 + l₂.length) ∈
      rolesLoop 0 [] (l₁ ++ (r₁ :: l₂) ++ (r₂ :: l₃)) := by
    rw [rolesLoop_append]
    refine List.mem_append_right _ ?_
    rw [hidx, rolesLoop_cons]
    refine List.mem_append_left _ ?_
    rw [roleStep_fst, idCheck_fst_dup _ _ _ x hid2 hin2]
    exact List.mem_append_left _ (List.mem_append_left _ (List.mem_singleton.mpr rfl))
  have hmem : dup_role_issue x (l₁.length + 1 + l₂.length) ∈ is := by
    obtain ⟨d, hd, his, -⟩ := validate_inv c p is h
    subst his
    have : dup_role_issue x (l₁.length + 1 + l₂.length) ∈ validate_roles c := by
      rw [validate_roles_eq c _ hroles hne]
      exact List.mem_append_left _ hmemRL
    unfold allIssues
    simp only [List.mem_append]
    tauto
  refine ⟨?_, hmem, passed_false_of_error c p is h _ hmem rfl⟩
  rw [countP_val_roles c p is h isDupRoleIssue dupRole_cat,
      validate_roles_eq c _ hroles hne, List.countP_append, rolesLoop_dup,
      sizeIssues_dup, hcount]

/-- The duplicated roles list of the C4 witness: ids `a`, `b`, `a`. -/
def cDup : Config :=
  ⟨some "T",
   some [⟨some "a", none, none, some ["x"], none⟩,
         ⟨some "b", none, none, some ["x"], none⟩,
         ⟨some "a", none, none, some ["x"], none⟩],
   some ⟨some []⟩, some ⟨none⟩, none, true, true, true⟩

/-- Witness for C4 on `cDup`: one duplicate-id ERROR at `roles[2]`, run
fails. -/
theorem claim_duplicate_id_w :
    ∃ p is, validate cDup = some (p, is) ∧ is.countP isDupRoleIssue = 1 ∧
      dup_role_issue "a" 2 ∈ is ∧ p = false := by
  cases hv : validate cDup with
  | none => exact absurd hv (by decide)
  | some r =>
    obtain ⟨p, is⟩ := r
    obtain ⟨h1, h2, h3⟩ := claim_duplicate_id cDup p is
      [] [⟨some "b", none, none, some ["x"], none⟩] []
      ⟨some "a", none, none, some ["x"], none⟩
      ⟨some "a", none, none, some ["x"], none⟩ "a"
      hv rfl rfl rfl (by decide) (by decide)
    exact ⟨p, is, rfl, h1, h2, h3⟩

/-! ### Claim C7: the model-fit heuristic -/

theorem find?_append_none {α : Type} (q : α → Bool) (l₁ l₂ : List α)
    (h : ∀ a ∈ l₁, q a = false) :
    List.find? q (l₁ ++ l₂) = List.find? q l₂ := by
  induction l₁ with
  | nil => rfl
  | cons a rest ih =>
    rw [List.cons_append, List.find?_cons_of_neg _ (by simp [h a (List.mem_cons_self a rest)])]
    exact ih fun b hb => h b (List.mem_cons_of_mem _ hb)

theorem idCheck_opt (i : Nat) (ids : List String) (r : Role) :
    (idCheck i ids r).1.countP isOptInfoIssue = 0 := by
  unfold idCheck
  cases r.id with
  | none => simp [opt_missing_id]
  | some rid =>
    by_cases hm : rid ∈ ids
    · simp [hm, opt_dup_role]
    · simp [hm]

theorem respCheck_opt (i : Nat) (r : Role) :
    (respCheck i r).countP isOptInfoIssue = 0 := by
  unfold respCheck
  cases r.responsibilities with
  | none => simp [opt_resp]
  | some rr => split <;> simp [opt_resp]

theorem modelCheck_opt (i : Nat) (r : Role) (m : String) (hm : r.model = some m) :
    (modelCheck i r).countP isOptInfoIssue =
      if m = suggest_model (r.type.getD "") then 0 else 1 := by
  unfold modelCheck
  rw [hm]
  show ((if m ∉ ["opus", "sonnet", "haiku"] then [invalid_model_issue m (ridOr r i) i]
         else []) ++
        (if m ≠ suggest_model (r.type.getD "") then
           [opt_model_issue (ridStr r) m (suggest_model (r.type.getD "")) (r.type.getD "") i]
         else [])).countP isOptInfoIssue = _
  rw [List.countP_append]
  have h1 : (if m ∉ ["opus", "sonnet", "haiku"] then [invalid_model_issue m (ridOr r i) i]
      else []).countP isOptInfoIssue = 0 := by
    split <;> simp [opt_invalid_model]
  rw [h1]
  by_cases hs : m = suggest_model (r.type.getD "")
  · rw [if_neg (by simpa using hs), if_pos hs]
    rfl
  · rw [if_pos hs, if_neg hs]
    simp [opt_opt_model]

/-- Claim C7: for a role carrying a `model`, the per-role checks emit the
model-fit INFO exactly when the configured model differs from
`_suggest_model` of the role type; and `_suggest_model` returns the value of
the first table entry (in declaration order) whose keyword is a substring of
the lowercased type, defaulting to `sonnet` when no keyword matches. -/
theorem claim_model_fit (i : Nat) (ids : List String) (r : Role) (m : String)
    (hm : r.model = some m) :
    ((roleStep i ids r).1.countP isOptInfoIssue =
       if m = suggest_model (r.type.getD "") then 0 else 1) ∧
    (∀ t (l₁ : List (String × String)) k v l₂, role_models = l₁ ++ (k, v) :: l₂ →
       strContains (pyLower t) k = true →
       (∀ kv ∈ l₁, strContains (pyLower t) kv.1 = false) →
       suggest_model t = v) ∧
    (∀ t, (∀ kv ∈ role_models, strContains (pyLower t) kv.1 = false) →
       suggest_model t = "sonnet") := by
  refine ⟨?_, ?_, ?_⟩
  · rw [roleStep_fst, List.countP_append, List.countP_append, idCheck_opt,
        modelCheck_opt i r m hm, respCheck_opt]
    omega
  · intro t l₁ k v l₂ htab hk hl₁
    unfold suggest_model
    rw [htab, find?_append_none _ l₁ _ (fun kv hkv => hl₁ kv hkv),
        List.find?_cons_of_pos _ (by simpa using hk)]
  · intro t hall
    unfold suggest_model
    rw [List.find?_eq_none.mpr (fun kv hkv => by simp [hall kv hkv])]

/-- The C7 witness role: a developer configured on `opus`. -/
def devRole : Role := ⟨some "dev1", some "opus", some "developer", some ["code"], none⟩

/-- Witness for C7 on `devRole`: the suggestion is `sonnet`, the configured
model is `opus`, one INFO is emitted. -/
theorem claim_model_fit_w :
    (roleStep 0 [] devRole).1.countP isOptInfoIssue = 1 ∧
      suggest_model "developer" = "sonnet" := by
  have h := (claim_model_fit 0 [] devRole "opus" rfl).1
  exact ⟨h.trans (by decide), by decide⟩

end TeamVal
